import Mathlib

/-!
AI sales agent dashboard: cache store, table view and session state

A shallow embedding of the pure logic of `frontend/js/app.js`:

* the analysis cache kept in `localStorage` under the key `analysisCache`
  (`getAnalysisCache`, `setAnalysisCache`, `isAnalysisCached`);
* the customers table (`renderCustomersTableUI`): search filter, sort comparator,
  sort-header click handler;
* the products grid (`renderProductsGridUI`): category filter;
* the session variables and the actions on them (`loadCustomerProfile`,
  `resetApplication`, `runAnalysis`, `runRecommendations`, `runEmail`, `runMockups`,
  `startAnalysis`).

JavaScript values that the code handles are JSON data (responses of `response.json()`
and results of `JSON.parse`), so they are modelled by the inductive type `JVal`;
`undefined`, which only arises as the result of reading a missing property, is
`none : Option JVal`.
-/

namespace SalesAgent

/-! ## JSON values and the JavaScript operations used on them -/

/-- A JSON value. Numbers are kept as integers: the code only observes whether a
number is zero. An object is the list of its own properties in insertion order. -/
inductive JVal where
  | null
  | bool (b : Bool)
  | num (n : Int)
  | str (s : String)
  | arr (xs : List JVal)
  | obj (kvs : List (String × JVal))

/-- The exceptions that the modelled code can raise. -/
inductive Exn where
  | syntaxError
  | typeError
  deriving DecidableEq, Repr

/-- JavaScript `ToBoolean` on JSON values: `null`, `false`, `0` and `''` are falsy,
everything else (every array and object, also empty ones) is truthy. -/
def truthy : JVal → Bool
  | .null => false
  | .bool b => b
  | .num n => n != 0
  | .str s => s != ""
  | .arr _ => true
  | .obj _ => true

/-- `ToBoolean` on a value that may be `undefined`. -/
def truthyOpt : Option JVal → Bool
  | none => false
  | some v => truthy v

/-- First binding of key `k` in a property list. -/
def assocGet : List (String × JVal) → String → Option JVal
  | [], _ => none
  | (k', v) :: rest, k => if k' = k then some v else assocGet rest k

/-- Property assignment on a property list: an existing key keeps its position and
gets the new value, a new key is appended. -/
def assocSet : List (String × JVal) → String → JVal → List (String × JVal)
  | [], k, v => [(k, v)]
  | (k', v') :: rest, k, v =>
    if k' = k then (k, v) :: rest else (k', v') :: assocSet rest k v

/-- Value of a list of decimal digits read left to right, starting from `acc`;
`none` when a character is not a digit. -/
def digitsValue? : List Char → Nat → Option Nat
  | [], acc => some acc
  | c :: cs, acc =>
    if c.isDigit then digitsValue? cs (10 * acc + (c.toNat - 48)) else none

/-- The array index denoted by a property key: `k` is an index when it is the
canonical decimal numeral of a natural number (digits only, no leading zero). -/
def arrayIndex? (k : String) : Option Nat :=
  match k.data with
  | [] => none
  | [c] => digitsValue? [c] 0
  | c :: cs => if c = '0' then none else digitsValue? (c :: cs) 0

/-- The characters of a string as one-character strings (for text of the basic
multilingual plane a character is one UTF-16 code unit). -/
def charStrings (s : String) : List JVal :=
  s.data.map fun c => JVal.str (String.singleton c)

/-- Property read `base[k]`. Reading a property of `null` raises a `TypeError`;
numbers and booleans have no own properties; strings and arrays have their index
properties and `length` (counted in characters, which for text of the basic
multilingual plane are the code units). Properties inherited from the built-in prototypes are not
modelled: the keys this program reads are decimal customer ids and the names
`analysis`, `recommendations`, `email`. -/
def getProp : JVal → String → Except Exn (Option JVal)
  | .null, _ => .error .typeError
  | .bool _, _ => .ok none
  | .num _, _ => .ok none
  | .str s, k =>
    if k = "length" then .ok (some (.num s.length))
    else match arrayIndex? k with
      | some i => .ok ((charStrings s)[i]?)
      | none => .ok none
  | .arr xs, k =>
    if k = "length" then .ok (some (.num xs.length))
    else match arrayIndex? k with
      | some i => .ok (xs[i]?)
      | none => .ok none
  | .obj kvs, k => .ok (assocGet kvs k)

/-- Index properties `0, 1, …` of a list of elements. -/
def indexProps (xs : List JVal) : List (String × JVal) :=
  xs.enum.map fun p => (toString p.1, p.2)

/-- Own enumerable properties copied by object spread `{ ...x }`: nothing for
`undefined`, `null`, numbers and booleans; the index properties of strings and
arrays; the properties of an object. -/
def ownProps : Option JVal → List (String × JVal)
  | none => []
  | some .null => []
  | some (.bool _) => []
  | some (.num _) => []
  | some (.str s) => indexProps (charStrings s)
  | some (.arr xs) => indexProps xs
  | some (.obj kvs) => kvs

/-- Copies the properties `src` onto the property list `target`, in order. -/
def copyProps (target src : List (String × JVal)) : List (String × JVal) :=
  src.foldl (fun acc p => assocSet acc p.1 p.2) target

/-- The object literal `{ ...x, ...y }`. -/
def spread2 (x y : Option JVal) : JVal :=
  .obj (copyProps (copyProps [] (ownProps x)) (ownProps y))

/-- Property assignment `base[k] = v`, as seen by a later `JSON.stringify(base)`.
Assigning to a property of `null` raises a `TypeError`. In this (non-strict) script
an assignment to a property of a number, boolean or string is silently ignored.
On an array an index beyond the end creates holes, which `JSON.stringify` writes as
`null`; a non-index property of an array is not serialised. -/
def setProp : JVal → String → JVal → Except Exn JVal
  | .null, _, _ => .error .typeError
  | .bool b, _, _ => .ok (.bool b)
  | .num n, _, _ => .ok (.num n)
  | .str s, _, _ => .ok (.str s)
  | .arr xs, k, v =>
    match arrayIndex? k with
    | some i =>
      if i < xs.length then .ok (.arr (xs.set i v))
      else .ok (.arr (xs ++ List.replicate (i - xs.length) .null ++ [v]))
    | none => .ok (.arr xs)
  | .obj kvs, k, v => .ok (.obj (assocSet kvs k v))

/-! ## The persisted cache blob -/

/-- A string held in `localStorage`, described by what `JSON.parse` makes of it:
`garbage raw` is text that `JSON.parse` rejects with a `SyntaxError` (this includes
the empty string), `json v` is JSON text that parses to `v`. -/
inductive Blob where
  | garbage (raw : String)
  | json (v : JVal)

/-- The value stored under the key `analysisCache`; `none` when the key is absent
(`localStorage.getItem` then returns `null`). -/
abbrev LocalStorage := Option Blob

/-- `JSON.parse`. -/
def JSONparse : Blob → Except Exn JVal
  | .garbage _ => .error .syntaxError
  | .json v => .ok v

/-- The expression `localStorage.getItem('analysisCache') || '{}'`: `null` and the
empty string are falsy and are replaced by the text `{}`. -/
def getItemOrEmptyObject : LocalStorage → Blob
  | none => .json (.obj [])
  | some (.garbage raw) => if raw = "" then .json (.obj []) else .garbage raw
  | some (.json v) => .json v

/-- `getAnalysisCache()`: parse the persisted blob, and return `{}` when parsing
raises. -/
def getAnalysisCache (ls : LocalStorage) : Except Exn JVal :=
  match JSONparse (getItemOrEmptyObject ls) with
  | .ok v => .ok v
  | .error _ => .ok (.obj [])

/-- The property key of a customer id (`ToString` of an integer number). -/
def propKey (customerId : Int) : String := toString customerId

/-- `setAnalysisCache(customerId, data)`: returns the new content of the storage
key, or the exception that escapes.
`cache[customerId] = { ...cache[customerId], ...data }` followed by
`localStorage.setItem('analysisCache', JSON.stringify(cache))`. -/
def setAnalysisCache (ls : LocalStorage) (customerId : Int) (data : JVal) :
    Except Exn LocalStorage := do
  let cache ← getAnalysisCache ls
  let previous ← getProp cache (propKey customerId)
  let cache' ← setProp cache (propKey customerId) (spread2 previous (some data))
  pure (some (.json cache'))

/-- The operator `x && y` on values: `y` is evaluated only when `x` is truthy. -/
def andThen (x : Option JVal) (y : Except Exn (Option JVal)) : Except Exn (Option JVal) :=
  if truthyOpt x then y else .ok x

/-- Property read on a value that may be `undefined`. -/
def getPropOpt : Option JVal → String → Except Exn (Option JVal)
  | none, _ => .error .typeError
  | some v, k => getProp v k

/-- The body of the `try` block of `isAnalysisCached`:
`!!(entry && entry.analysis && entry.recommendations && entry.email)`. -/
def isAnalysisCachedTry (ls : LocalStorage) (customerId : Int) : Except Exn Bool := do
  let cache ← getAnalysisCache ls
  let entry ← getProp cache (propKey customerId)
  let r1 ← andThen entry (getPropOpt entry "analysis")
  let r2 ← andThen r1 (getPropOpt entry "recommendations")
  let r3 ← andThen r2 (getPropOpt entry "email")
  pure (truthyOpt r3)

/-- `isAnalysisCached(customerId)`: the `try` body, with `false` when it raises. -/
def isAnalysisCached (ls : LocalStorage) (customerId : Int) : Bool :=
  match isAnalysisCachedTry ls customerId with
  | .ok b => b
  | .error _ => false

/-- Spec wording for a cache value that counts as present: "non-null/non-empty",
read literally: not `null`, and not an empty string, array or object. -/
def nonNullNonEmpty : JVal → Bool
  | .null => false
  | .bool _ => true
  | .num _ => true
  | .str s => s != ""
  | .arr xs => !xs.isEmpty
  | .obj kvs => !kvs.isEmpty

/-- Spec wording of `isComplete(customerId)`: the entry exists and all three of
`analysis`, `recommendations`, `email` are present and non-null/non-empty. -/
def specIsComplete (ls : LocalStorage) (customerId : Int) : Prop :=
  ∃ cache entry a r e,
    getAnalysisCache ls = .ok cache ∧
    getProp cache (propKey customerId) = .ok (some entry) ∧
    getProp entry "analysis" = .ok (some a) ∧
    getProp entry "recommendations" = .ok (some r) ∧
    getProp entry "email" = .ok (some e) ∧
    nonNullNonEmpty a = true ∧ nonNullNonEmpty r = true ∧ nonNullNonEmpty e = true

/-- Reading the property `k` of `e` succeeds with a truthy value. -/
def propTruthy (e : JVal) (k : String) : Bool :=
  match getProp e k with
  | .ok v => truthyOpt v
  | .error _ => false

/-! ## Customers table -/

/-- The `company` record of a customer row. The code reads these four fields
without any guard (`c.company.name.toLowerCase()`), so they are strings. -/
structure Company where
  name : String
  industry : String
  size : String
  location : String
  deriving DecidableEq, Repr

/-- The `budget_range` field of a row: missing (`undefined`), JSON `null`, or a string.
The search filter and the row template read it as `budget_range||''`, which covers all
three; the comparator reads it bare and only replaces `undefined`. -/
inductive BudgetRange where
  | undefined
  | null
  | str (s : String)
  deriving DecidableEq, Repr

/-- `budget_range||''`: a missing, null or empty value gives the empty string. -/
def BudgetRange.orEmpty : BudgetRange → String
  | .str s => s
  | _ => ""

/-- The `behavioral_data` record of a customer row. `pain_points` and
`recent_activities` are optional and every read of them is guarded (`pain_points||[]`,
`recent_activities?.[0]`), so that a missing and a null value behave alike: `none`. -/
structure BehavioralData where
  budget_range : BudgetRange
  pain_points : Option (List String)
  recent_activities : Option (List String)
  deriving DecidableEq, Repr

/-- One customer row of `customersTableData`. -/
structure Customer where
  id : Int
  company : Company
  behavioral_data : BehavioralData
  deriving DecidableEq, Repr

/-- The sort specification `customersTableSort`. -/
structure SortSpec where
  column : String
  asc : Bool
  deriving DecidableEq, Repr

/-- The UTF-16 code units of a character. -/
def utf16 (c : Char) : List Nat :=
  if c.toNat < 0x10000 then [c.toNat]
  else [0xD800 + (c.toNat - 0x10000) / 0x400, 0xDC00 + (c.toNat - 0x10000) % 0x400]

/-- The UTF-16 code units of a string: JavaScript compares and searches strings by
code unit. -/
def codeUnits (s : String) : List Nat :=
  s.data.flatMap utf16

/-- `s.includes(search)`: `search` occurs in `s` as a contiguous run of code units. -/
def includes (s search : String) : Bool :=
  decide (codeUnits search <:+: codeUnits s)

/-- `xs.join(sep)` on an array of strings. -/
def join (xs : List String) (sep : String) : String :=
  sep.intercalate xs

/-- The predicate given to `filter` in `renderCustomersTableUI`. The built-in
`String.prototype.toLowerCase` is a parameter. -/
def searchPredicate (toLowerCase : String → String) (searchVal : String) (c : Customer) : Bool :=
  includes (toLowerCase c.company.name) (toLowerCase searchVal) ||
  includes (toLowerCase c.company.industry) (toLowerCase searchVal) ||
  includes (toLowerCase c.company.size) (toLowerCase searchVal) ||
  includes (toLowerCase c.company.location) (toLowerCase searchVal) ||
  includes (toLowerCase c.behavioral_data.budget_range.orEmpty) (toLowerCase searchVal) ||
  includes (toLowerCase (join (c.behavioral_data.pain_points.getD []) ","))
    (toLowerCase searchVal)

/-- The search step: `if (searchVal) filtered = filtered.filter(...)`. -/
def searchFilter (toLowerCase : String → String) (searchVal : String)
    (customersTableData : List Customer) : List Customer :=
  if searchVal ≠ "" then customersTableData.filter (searchPredicate toLowerCase searchVal)
  else customersTableData

/-- A value compared by the sort comparator. -/
inductive SortVal where
  | undefined
  | null
  | str (s : String)
  | num (n : Int)
  deriving DecidableEq, Repr

/-- `recent_activities?.[0] || ''`. -/
def firstActivity : Option (List String) → String
  | none => ""
  | some [] => ""
  | some (x :: _) => if x ≠ "" then x else ""

/-- The `switch (customersTableSort.column)` of the comparator, for one row. -/
def sortVal (ls : LocalStorage) (column : String) (c : Customer) : SortVal :=
  if column = "company" then .str c.company.name
  else if column = "industry" then .str c.company.industry
  else if column = "size" then .str c.company.size
  else if column = "location" then .str c.company.location
  else if column = "budget" then
    (match c.behavioral_data.budget_range with
     | .str s => .str s
     | .null => .null
     | .undefined => .undefined)
  else if column = "pain_points" then .str (join (c.behavioral_data.pain_points.getD []) ", ")
  else if column = "last_activity" then .str (firstActivity c.behavioral_data.recent_activities)
  else if column = "reachout_ready" then .num (if isAnalysisCached ls c.id then 1 else 0)
  else .str ""

/-- `if (aVal === undefined) aVal = ''`. -/
def undefinedToEmpty : SortVal → SortVal
  | .undefined => .str ""
  | v => v

/-- The sign of a number, or `nan` for not-a-number. -/
inductive NumberSign where
  | nan
  | negative
  | zero
  | positive
  deriving DecidableEq, Repr

/-- The operator `<` on the values the comparator handles. Two strings are compared by
code unit, two numbers by value. `null` is converted to the number 0 and the other
operand to a number as well: the sign of the built-in conversion `ToNumber` of a string
is the parameter `toNumberSign` (the empty string converts to 0, text that is not a
numeric literal to `NaN`), so `null < s` is `0 < ToNumber(s)` and `s < null` is
`ToNumber(s) < 0`. A comparison with `undefined` is false. A string is never compared
with a number here (both values come from the same `case`), and the model gives
`false` there. -/
def jsLt (toNumberSign : String → NumberSign) : SortVal → SortVal → Bool
  | .str a, .str b => decide (codeUnits a < codeUnits b)
  | .num a, .num b => decide (a < b)
  | .null, .str b => toNumberSign b == .positive
  | .str a, .null => toNumberSign a == .negative
  | .null, .num b => decide (0 < b)
  | .num a, .null => decide (a < 0)
  | _, _ => false

/-- The comparator passed to `sort` in `renderCustomersTableUI`. -/
def compareCustomers (toNumberSign : String → NumberSign) (ls : LocalStorage) (sort : SortSpec)
    (a b : Customer) : Int :=
  let aVal := undefinedToEmpty (sortVal ls sort.column a)
  let bVal := undefinedToEmpty (sortVal ls sort.column b)
  if jsLt toNumberSign aVal bVal then (if sort.asc then -1 else 1)
  else if jsLt toNumberSign bVal aVal then (if sort.asc then 1 else -1)
  else 0

/-- `Array.prototype.sort(cmp)`. With a comparator that is consistent on the elements
the result is the stable sorted arrangement (ECMAScript requires a stable sort), computed
here by insertion. With a comparator that is not consistent on the elements ECMAScript
leaves the order to the implementation; the result is a permutation in any case, and the
model gives the order of this insertion. -/
def jsSort {α : Type} (cmp : α → α → Int) (xs : List α) : List α :=
  xs.insertionSort (fun a b => cmp a b ≤ 0)

/-- The rows of `filtered` after the search and sort steps of
`renderCustomersTableUI`; nothing is rendered for an empty `customersTableData`. -/
def visibleCustomers (toLowerCase : String → String) (toNumberSign : String → NumberSign)
    (ls : LocalStorage) (sort : SortSpec) (searchVal : String)
    (customersTableData : List Customer) : List Customer :=
  if customersTableData.isEmpty then []
  else jsSort (compareCustomers toNumberSign ls sort)
    (searchFilter toLowerCase searchVal customersTableData)

/-- The table rows `trs` that `renderCustomersTableUI` produces for the search text
`searchVal`: each visible row with its `ready` flag. -/
def renderCustomersTableUI (toLowerCase : String → String)
    (toNumberSign : String → NumberSign) (ls : LocalStorage) (sort : SortSpec)
    (searchVal : String) (customersTableData : List Customer) : List (Customer × Bool) :=
  (visibleCustomers toLowerCase toNumberSign ls sort searchVal customersTableData).map
    fun c => (c, isAnalysisCached ls c.id)

/-- The customers tab as `renderCustomersTableUI` reads and leaves it: the global
`customersTableData` and `customersTableSort`, the text in the element
`customersSearchBox` (`none` when the container holds no such element), and the table
rows shown. -/
structure CustomersPage where
  customersTableData : List Customer
  customersTableSort : SortSpec
  searchBox : Option String
  rows : List (Customer × Bool)

/-- One run of `renderCustomersTableUI()`. For an empty `customersTableData` the
container only gets the text "No customers found." Otherwise the search text is read
from the search box (`''` when there is no box), the rows are computed, and
`container.innerHTML` is assigned the button, a new search box and the table: the new
box is empty. -/
def CustomersPage.render (toLowerCase : String → String) (toNumberSign : String → NumberSign)
    (ls : LocalStorage) (p : CustomersPage) : CustomersPage :=
  if p.customersTableData.isEmpty then { p with searchBox := none, rows := [] }
  else
    { p with
      searchBox := some ""
      rows := renderCustomersTableUI toLowerCase toNumberSign ls p.customersTableSort
        (p.searchBox.getD "") p.customersTableData }

/-- The `input` event of the search box with the text `text` in it: the handler is
`renderCustomersTableUI`. -/
def CustomersPage.input (toLowerCase : String → String) (toNumberSign : String → NumberSign)
    (ls : LocalStorage) (p : CustomersPage) (text : String) : CustomersPage :=
  CustomersPage.render toLowerCase toNumberSign ls { p with searchBox := some text }

/-- The declared columns of the customers table: key and label. -/
def columns : List (String × String) :=
  [("company", "Company Name"), ("industry", "Industry"), ("size", "Size"),
   ("location", "Location"), ("budget", "Budget"), ("pain_points", "Pain Points"),
   ("last_activity", "Last Activity"), ("reachout_ready", "Reachout Info Ready")]

/-- The `onclick` handler of the sortable header number `idx`: the new value of
`customersTableSort`. -/
def thOnclick (sort : SortSpec) (idx : Fin columns.length) : SortSpec :=
  let col := (columns.get idx).1
  if sort.column = col then { sort with asc := !sort.asc }
  else { column := col, asc := true }

/-- Spec wording of `setSort(columnKey)`: toggle the direction when the key is the
current column, otherwise select the key ascending. -/
def specSetSort (sort : SortSpec) (columnKey : String) : SortSpec :=
  if columnKey = sort.column then { column := sort.column, asc := !sort.asc }
  else { column := columnKey, asc := true }

/-- The click on the sortable header number `idx`: `th.onclick` sets the sort
specification and calls `renderCustomersTableUI`. -/
def CustomersPage.click (toLowerCase : String → String) (toNumberSign : String → NumberSign)
    (ls : LocalStorage) (p : CustomersPage) (idx : Fin columns.length) : CustomersPage :=
  CustomersPage.render toLowerCase toNumberSign ls
    { p with customersTableSort := thOnclick p.customersTableSort idx }

/-- Spec wording: the searchable fields of a row. -/
def searchableFields (c : Customer) : List String :=
  [c.company.name, c.company.industry, c.company.size, c.company.location,
   c.behavioral_data.budget_range.orEmpty, join (c.behavioral_data.pain_points.getD []) ","]

/-- Spec wording: `field` contains `s` as a case-insensitive substring. -/
def containsIgnoringCase (toLowerCase : String → String) (field s : String) : Prop :=
  codeUnits (toLowerCase s) <:+: codeUnits (toLowerCase field)

/-- Spec wording: a missing optional field replaced by the empty string (empty list). -/
def fillMissing (c : Customer) : Customer :=
  { c with behavioral_data :=
      { budget_range :=
          match c.behavioral_data.budget_range with
          | .undefined => .str ""
          | b => b
        pain_points := some (c.behavioral_data.pain_points.getD [])
        recent_activities := some (c.behavioral_data.recent_activities.getD []) } }

/-- The row with a null `budget_range` replaced by the empty string, as the sibling
reads `budget_range||''` do. -/
def withoutNull (c : Customer) : Customer :=
  { c with behavioral_data :=
      { c.behavioral_data with
        budget_range :=
          match c.behavioral_data.budget_range with
          | .null => .str ""
          | b => b } }

/-- No row that the comparator reads the budget of has a null `budget_range`: the sort
column is not `budget`, or no row of the list has a null budget. -/
def NoNullBudget (sort : SortSpec) (rows : List Customer) : Prop :=
  sort.column = "budget" → ∀ c ∈ rows, c.behavioral_data.budget_range ≠ .null

/-- Spec wording: a comparator is a strict weak ordering: irreflexive, antisymmetric in
sign, transitive, and with a transitive tie relation. -/
def IsStrictWeakOrdering {α : Type} (cmp : α → α → Int) : Prop :=
  (∀ a, ¬ cmp a a < 0) ∧
  (∀ a b, cmp a b < 0 ↔ 0 < cmp b a) ∧
  (∀ a b c, cmp a b < 0 → cmp b c < 0 → cmp a c < 0) ∧
  (∀ a b c, cmp a b = 0 → cmp b c = 0 → cmp a c = 0)

/-- Three-way comparison of two keys of a linear order, inverted when descending. -/
def compareKeys {κ : Type} [LinearOrder κ] (asc : Bool) (x y : κ) : Int :=
  if x < y then (if asc then -1 else 1)
  else if y < x then (if asc then 1 else -1)
  else 0

/-- Spec wording: the cache entry of a customer is complete: the cache has an entry for
the id, and `analysis`, `recommendations` and `email` are present in it and truthy. -/
def EntryComplete (ls : LocalStorage) (customerId : Int) : Prop :=
  ∃ cache entry a r e,
    getAnalysisCache ls = .ok cache ∧
    getProp cache (propKey customerId) = .ok (some entry) ∧
    getProp entry "analysis" = .ok (some a) ∧
    getProp entry "recommendations" = .ok (some r) ∧
    getProp entry "email" = .ok (some e) ∧
    truthy a = true ∧ truthy r = true ∧ truthy e = true

/-! ## Products grid -/

/-- One product of `productsGridData`. -/
structure Product where
  id : Int
  name : String
  category : String
  price_range : String
  deriving DecidableEq, Repr

/-- The products that `renderProductsGridUI` shows as cards: nothing for an empty
`productsGridData`, else the products that pass the category filter. -/
def renderProductsGridUI (productsGridCategory : String) (productsGridData : List Product) :
    List Product :=
  if productsGridData.isEmpty then []
  else if productsGridCategory ≠ "All" then
    productsGridData.filter (fun p => p.category = productsGridCategory)
  else productsGridData

/-! ## Session state and actions

The module-level variables of `app.js` and the parts of the page that the actions
change. Each action is given as one step, in which the answer of the transport arrives
before anything else happens. The actions `loadCustomerProfile`, `runAnalysis`,
`runRecommendations` and `runEmail` are given in two parts as well: the part up to the
`await` of the transport, and the part that resumes with the answer, in the session as
the actions that ran meanwhile left it. Reads and writes of page elements other than the
four status indicators have no effect on the session and are left out; the page elements
are taken to exist. The `finally` blocks only restore a button and are left out as
well. -/

/-- The status of a pipeline stage indicator. -/
inductive Status where
  | pending
  | processing
  | complete
  | error
  deriving DecidableEq, Repr

/-- The four status indicators. -/
inductive StageId where
  | statusProfile
  | statusAnalysis
  | statusProducts
  | statusEmail
  deriving DecidableEq, Repr

/-- The class of each status indicator. -/
structure Statuses where
  statusProfile : Status
  statusAnalysis : Status
  statusProducts : Status
  statusEmail : Status
  deriving DecidableEq, Repr

/-- The status of one indicator. -/
def Statuses.get (st : Statuses) : StageId → Status
  | .statusProfile => st.statusProfile
  | .statusAnalysis => st.statusAnalysis
  | .statusProducts => st.statusProducts
  | .statusEmail => st.statusEmail

/-- Sets the status of one indicator. -/
def Statuses.set (st : Statuses) (statusId : StageId) (status : Status) : Statuses :=
  match statusId with
  | .statusProfile => { st with statusProfile := status }
  | .statusAnalysis => { st with statusAnalysis := status }
  | .statusProducts => { st with statusProducts := status }
  | .statusEmail => { st with statusEmail := status }

/-- A request given to the transport client: `api.get(endpoint)` has no body,
`api.post(endpoint, data)` has the JSON body `data`. -/
structure Request where
  method : String
  endpoint : String
  body : Option JVal

/-- The transport client: the parsed JSON response of a request, or the message of the
`Error` that the request raises. -/
abbrev Transport := Request → Except String JVal

/-- The session: the global variables `currentCustomer`, `currentAnalysis`,
`currentRecommendations`, `selectedProducts`, `window.currentEmail`, the persisted cache
blob, the status indicators and the notifications shown, together with two records kept
for the statements: the transport requests issued and the status changes applied, oldest
first. `selectedProducts` is a set that the code only adds to and clears; it is kept as
the list of the ids added. -/
structure Session where
  currentCustomer : Option Int
  currentAnalysis : JVal
  currentRecommendations : JVal
  selectedProducts : List (Option JVal)
  currentEmail : Option JVal
  storage : LocalStorage
  status : Statuses
  notifications : List (String × String)
  requests : List Request
  transitions : List (StageId × Status × Status)

/-- The result of running an action: the session it leaves, and the exception that
escapes the action, if any. -/
structure Outcome where
  session : Session
  raised : Option Exn

/-- `updateProcessingStatus(statusId, status)`. -/
def updateProcessingStatus (s : Session) (statusId : StageId) (status : Status) : Session :=
  { s with
    status := s.status.set statusId status
    transitions := s.transitions ++ [(statusId, s.status.get statusId, status)] }

/-- `showNotification(message, type)`. -/
def showNotification (s : Session) (message type : String) : Session :=
  { s with notifications := s.notifications ++ [(message, type)] }

/-- Records a transport request. -/
def issue (s : Session) (req : Request) : Session :=
  { s with requests := s.requests ++ [req] }

/-- `ToBoolean(currentCustomer)`: `null` and `0` are falsy. -/
def customerSelected : Option Int → Bool
  | none => false
  | some n => n != 0

/-- A method call such as `x.join(...)`, `x.map(...)` on the result of `slice`: it
succeeds on an array and raises a `TypeError` on every other value. -/
def requireArray : Option JVal → Except Exn (List JVal)
  | some (.arr xs) => .ok xs
  | _ => .error .typeError

/-- The exceptions of `displayCustomerIntelligence()`: nothing is read when
`currentAnalysis` is falsy; otherwise `currentAnalysis.analysis.company_profile`,
`currentAnalysis.pain_points.join`, `currentAnalysis.opportunities.join` and
`currentAnalysis.analysis.decision_making_factors` are read. -/
def displayCustomerIntelligence (currentAnalysis : JVal) : Except Exn Unit :=
  if !truthy currentAnalysis then .ok ()
  else do
    let analysis ← getProp currentAnalysis "analysis"
    let _ ← getPropOpt analysis "company_profile"
    let painPoints ← getProp currentAnalysis "pain_points"
    let _ ← requireArray painPoints
    let opportunities ← getProp currentAnalysis "opportunities"
    let _ ← requireArray opportunities
    let _ ← getPropOpt analysis "decision_making_factors"
    pure ()

/-- The exceptions of `displayProductRecommendations()`: nothing is read when
`currentRecommendations` is falsy; otherwise
`currentRecommendations.recommendations.slice(0, 5).map(rec => ...)` reads
`rec.match_score` of each of the first five elements. -/
def displayProductRecommendations (currentRecommendations : JVal) : Except Exn Unit :=
  if !truthy currentRecommendations then .ok ()
  else do
    let recommendations ← getProp currentRecommendations "recommendations"
    let recs ← requireArray recommendations
    let _ ← (recs.take 5).mapM (fun rec => getProp rec "match_score")
    pure ()

/-- `displayEmail(emailResult)`: reads `emailResult.personalization_score` and then
stores the result in `window.currentEmail`. -/
def displayEmail (s : Session) (emailResult : JVal) : Except Exn Session := do
  let _ ← getProp emailResult "personalization_score"
  pure { s with currentEmail := some emailResult }

/-- The exceptions of `displayMockups(mockupResult)`:
`mockupResult.mockup_images.map((imageData, index) => mockupResult.variations[index] || ...)`. -/
def displayMockups (mockupResult : JVal) : Except Exn Unit := do
  let images ← getProp mockupResult "mockup_images"
  let imgs ← requireArray images
  let variations ← getProp mockupResult "variations"
  let _ ← imgs.enum.mapM (fun p => getPropOpt variations (toString p.1))
  pure ()

/-- The exceptions of `updateCustomerDisplay(customer)`, which reads
`customer.company.name`, `.industry`, `.size` and `customer.behavioral_data.budget_range`,
followed by `updateCurrentCustomerName(customer.company.name)`. -/
def updateCustomerDisplay (customer : JVal) : Except Exn Unit := do
  let company ← getProp customer "company"
  let _ ← getPropOpt company "name"
  let _ ← getPropOpt company "industry"
  let _ ← getPropOpt company "size"
  let behavioral ← getProp customer "behavioral_data"
  let _ ← getPropOpt behavioral "budget_range"
  let _ ← getPropOpt company "name"
  pure ()

/-- `resetSectionStates()`: every status indicator is set to pending. -/
def resetSectionStates (s : Session) : Session :=
  [StageId.statusProfile, .statusAnalysis, .statusProducts, .statusEmail].foldl
    (fun t statusId => updateProcessingStatus t statusId .pending) s

/-- The request of `api.getCustomer(customerId)`. -/
def getCustomerRequest (customerId : Int) : Request :=
  { method := "GET", endpoint := "/customers/" ++ toString customerId, body := none }

/-- The request of `api.post(endpoint, { customer_id: customerId })`. -/
def customerPost (endpoint : String) (customerId : Int) : Request :=
  { method := "POST", endpoint := endpoint,
    body := some (.obj [("customer_id", .num customerId)]) }

/-- The request of `api.generateEmail(customerId, [productId], 'consultative')`; an
`undefined` element of an array is serialised as `null`. -/
def generateEmailRequest (customerId : Int) (productId : Option JVal) : Request :=
  { method := "POST", endpoint := "/generate-email",
    body := some (.obj [("customer_id", .num customerId),
      ("product_ids", .arr [productId.getD .null]),
      ("email_style", .str "consultative")]) }

/-- A property of a request body; a property whose value is `undefined` is not
serialised. -/
def optionalProp (k : String) : Option JVal → List (String × JVal)
  | none => []
  | some v => [(k, v)]

/-- The request of `api.createMockup(customerId, productId, 'front cover', 'blue', null,
companyName)`. The parameter `companyName = ''` takes its default value when the
argument is `undefined`, so `company_name` is always sent. -/
def createMockupRequest (customerId : Int) (productId companyName : Option JVal) : Request :=
  { method := "POST", endpoint := "/create-mockup",
    body := some (.obj ([("customer_id", .num customerId)] ++ optionalProp "product_id" productId ++
      [("logo_placement", .str "front cover"), ("color_scheme", .str "blue"),
       ("company_name", companyName.getD (.str ""))])) }

/-- `loadCustomerProfile(customerId)`. -/
def loadCustomerProfile (api : Transport) (s : Session) (customerId : Int) : Outcome :=
  let s1 := { s with currentCustomer := some customerId }
  let s2 := issue s1 (getCustomerRequest customerId)
  let failed (t : Session) : Outcome :=
    { session := showNotification t "Failed to load customer data" "error", raised := none }
  match api (getCustomerRequest customerId) with
  | .error _ => failed s2
  | .ok customer =>
    match updateCustomerDisplay customer with
    | .error _ => failed s2
    | .ok _ => { session := resetSectionStates s2, raised := none }

/-- `resetApplication()`. -/
def resetApplication (s : Session) : Session :=
  resetSectionStates
    { s with
      currentCustomer := none
      currentAnalysis := .null
      currentRecommendations := .null
      selectedProducts := [] }

/-- The handler of the `change` event of the customer select: a non-empty value selects
the customer, the empty value resets the application. -/
def customerSelectChange (api : Transport) (s : Session) (value : Option Int) : Outcome :=
  match value with
  | some customerId => loadCustomerProfile api s customerId
  | none => { session := resetApplication s, raised := none }

/-- `runAnalysis()`. -/
def runAnalysis (api : Transport) (s : Session) : Outcome :=
  match s.currentCustomer with
  | none => { session := showNotification s "Please select a customer first" "error", raised := none }
  | some customerId =>
    if customerId = 0 then
      { session := showNotification s "Please select a customer first" "error", raised := none }
    else
      let failed (t : Session) : Outcome :=
        { session := showNotification (updateProcessingStatus t .statusProfile .error)
            "Analysis failed" "error", raised := none }
      let s1 := updateProcessingStatus s .statusProfile .processing
      let s2 := issue s1 (customerPost "/analyze-customer" customerId)
      match api (customerPost "/analyze-customer" customerId) with
      | .error _ => failed s2
      | .ok result =>
        let s3 := { s2 with currentAnalysis := result }
        match setAnalysisCache s3.storage customerId (.obj [("analysis", result)]) with
        | .error _ => failed s3
        | .ok storage =>
          let s4 := updateProcessingStatus { s3 with storage := storage } .statusProfile .complete
          match displayCustomerIntelligence s4.currentAnalysis with
          | .error _ => failed s4
          | .ok _ => { session := s4, raised := none }

/-- `runRecommendations()`. -/
def runRecommendations (api : Transport) (s : Session) : Outcome :=
  match s.currentCustomer with
  | none => { session := showNotification s "Please select a customer first" "error", raised := none }
  | some customerId =>
    if customerId = 0 then
      { session := showNotification s "Please select a customer first" "error", raised := none }
    else
      let failed (t : Session) : Outcome :=
        { session := showNotification (updateProcessingStatus t .statusAnalysis .error)
            "Failed to get recommendations" "error", raised := none }
      let s1 := updateProcessingStatus s .statusAnalysis .processing
      let s2 := issue s1 (customerPost "/recommend-products" customerId)
      match api (customerPost "/recommend-products" customerId) with
      | .error _ => failed s2
      | .ok result =>
        let s3 := { s2 with currentRecommendations := result }
        match setAnalysisCache s3.storage customerId (.obj [("recommendations", result)]) with
        | .error _ => failed s3
        | .ok storage =>
          let s4 := updateProcessingStatus { s3 with storage := storage } .statusAnalysis .complete
          match displayProductRecommendations s4.currentRecommendations with
          | .error _ => failed s4
          | .ok _ => { session := s4, raised := none }

/-- The guard `!currentRecommendations || !currentRecommendations.recommendations.length`
of `runEmail` and `runMockups`: whether the action must stop, or the `TypeError` of
reading `length` of a missing list. -/
def recommendationsMissing (currentRecommendations : JVal) : Except Exn Bool :=
  if !truthy currentRecommendations then .ok true
  else do
    let recommendations ← getProp currentRecommendations "recommendations"
    let length ← getPropOpt recommendations "length"
    pure (!truthyOpt length)

/-- `currentRecommendations.recommendations[0].product_id`. -/
def topProductId (currentRecommendations : JVal) : Except Exn (Option JVal) := do
  let recommendations ← getProp currentRecommendations "recommendations"
  let topProduct ← getPropOpt recommendations "0"
  getPropOpt topProduct "product_id"

/-- `runEmail()`. -/
def runEmail (api : Transport) (s : Session) : Outcome :=
  match s.currentCustomer with
  | none => { session := showNotification s "Please select a customer first" "error", raised := none }
  | some customerId =>
    if customerId = 0 then
      { session := showNotification s "Please select a customer first" "error", raised := none }
    else
      match recommendationsMissing s.currentRecommendations with
      | .error e => { session := s, raised := some e }
      | .ok true =>
        { session := showNotification s "Please get recommendations first" "error", raised := none }
      | .ok false =>
        let failed (t : Session) : Outcome :=
          { session := showNotification
              (updateProcessingStatus (updateProcessingStatus t .statusProducts .error)
                .statusEmail .error)
              "Failed to generate email" "error", raised := none }
        let s1 := updateProcessingStatus s .statusProducts .processing
        match topProductId s1.currentRecommendations with
        | .error _ => failed s1
        | .ok productId =>
          let s2 := issue s1 (generateEmailRequest customerId productId)
          match api (generateEmailRequest customerId productId) with
          | .error _ => failed s2
          | .ok result =>
            match setAnalysisCache s2.storage customerId (.obj [("email", result)]) with
            | .error _ => failed s2
            | .ok storage =>
              let s3 := updateProcessingStatus
                (updateProcessingStatus { s2 with storage := storage } .statusProducts .complete)
                .statusEmail .complete
              match displayEmail s3 result with
              | .error _ => failed s3
              | .ok s4 => { session := s4, raised := none }

/-- `runMockups()`. -/
def runMockups (api : Transport) (s : Session) : Outcome :=
  match s.currentCustomer with
  | none => { session := showNotification s "Please select a customer first" "error", raised := none }
  | some customerId =>
    if customerId = 0 then
      { session := showNotification s "Please select a customer first" "error", raised := none }
    else
      match recommendationsMissing s.currentRecommendations with
      | .error e => { session := s, raised := some e }
      | .ok true =>
        { session := showNotification s "Please get recommendations first" "error", raised := none }
      | .ok false =>
        let failed (t : Session) : Outcome :=
          { session := showNotification t "Failed to generate mockups" "error", raised := none }
        let s1 := issue s (getCustomerRequest customerId)
        match api (getCustomerRequest customerId) with
        | .error _ => failed s1
        | .ok customer =>
          match topProductId s1.currentRecommendations with
          | .error _ => failed s1
          | .ok productId =>
            match (getProp customer "company" >>= fun company => getPropOpt company "name") with
            | .error _ => failed s1
            | .ok companyName =>
              let s2 := issue s1 (createMockupRequest customerId productId companyName)
              match api (createMockupRequest customerId productId companyName) with
              | .error _ => failed s2
              | .ok result =>
                match displayMockups result with
                | .error _ => failed s2
                | .ok _ => { session := s2, raised := none }

/-- The comparison `length > 0`: `undefined` and `null` are not greater than 0, a boolean
counts as 0 or 1. The conversion of a string, array or object to a number is not
modelled: `positive` gives the result of the comparison for such a value. -/
def greaterThanZero (positive : JVal → Bool) : Option JVal → Bool
  | none => false
  | some .null => false
  | some (.bool b) => b
  | some (.num n) => decide (n > 0)
  | some v => positive v

/-- `startAnalysis()`: the three steps in one action. -/
def startAnalysis (api : Transport) (positive : JVal → Bool) (s : Session) : Outcome :=
  match s.currentCustomer with
  | none => { session := s, raised := none }
  | some customerId =>
    if customerId = 0 then { session := s, raised := none }
    else
      let failed (t : Session) : Outcome :=
        { session := updateProcessingStatus (showNotification t "Analysis failed" "error")
            .statusProfile .error, raised := none }
      let s1 := updateProcessingStatus s .statusProfile .processing
      let s2 := issue s1 (customerPost "/analyze-customer" customerId)
      match api (customerPost "/analyze-customer" customerId) with
      | .error _ => failed s2
      | .ok analysis =>
        let s3 := updateProcessingStatus { s2 with currentAnalysis := analysis }
          .statusProfile .complete
        let s4 := updateProcessingStatus s3 .statusAnalysis .processing
        let s5 := issue s4 (customerPost "/recommend-products" customerId)
        match api (customerPost "/recommend-products" customerId) with
        | .error _ => failed s5
        | .ok recommendations =>
          let s6 := updateProcessingStatus { s5 with currentRecommendations := recommendations }
            .statusAnalysis .complete
          let s7 := updateProcessingStatus s6 .statusProducts .processing
          match (getProp recommendations "recommendations" >>= fun l => getPropOpt l "length") with
          | .error _ => failed s7
          | .ok length =>
            if greaterThanZero positive length then
              match topProductId recommendations with
              | .error _ => failed s7
              | .ok productId =>
                let s8 := { s7 with selectedProducts := s7.selectedProducts ++ [productId] }
                let s9 := issue s8 (generateEmailRequest customerId productId)
                match api (generateEmailRequest customerId productId) with
                | .error _ => failed s9
                | .ok emailResult =>
                  let s10 := updateProcessingStatus
                    (updateProcessingStatus s9 .statusProducts .complete) .statusEmail .complete
                  match displayCustomerIntelligence s10.currentAnalysis with
                  | .error _ => failed s10
                  | .ok _ =>
                    match displayProductRecommendations s10.currentRecommendations with
                    | .error _ => failed s10
                    | .ok _ =>
                      match displayEmail s10 emailResult with
                      | .error _ => failed s10
                      | .ok s11 => { session := s11, raised := none }
            else { session := s7, raised := none }

/-- `setAnalysisCache(currentCustomer, data)` in an action that has resumed after its
`await`: the variable `currentCustomer` is read again, and the property key of `null`
is the text `null`. -/
def setAnalysisCacheCurrent (ls : LocalStorage) (currentCustomer : Option Int) (data : JVal) :
    Except Exn LocalStorage :=
  match currentCustomer with
  | some customerId => setAnalysisCache ls customerId data
  | none => do
    let cache ← getAnalysisCache ls
    let previous ← getProp cache "null"
    let cache' ← setProp cache "null" (spread2 previous (some data))
    pure (some (.json cache'))

/-- An action that has run up to its `await`: it has returned before reaching it, or it
waits, in the session `s`, for the answer to the request `req`. -/
inductive Started where
  | returned (out : Outcome)
  | awaiting (s : Session) (req : Request)

/-- `loadCustomerProfile(customerId)` up to the `await` of `api.getCustomer`. -/
def loadCustomerProfileStart (s : Session) (customerId : Int) : Started :=
  .awaiting (issue { s with currentCustomer := some customerId } (getCustomerRequest customerId))
    (getCustomerRequest customerId)

/-- `loadCustomerProfile(customerId)` from the `await` on, resumed in the session `s` with
the answer of the transport. -/
def loadCustomerProfileResume (s : Session) (answer : Except String JVal) : Outcome :=
  let failed (t : Session) : Outcome :=
    { session := showNotification t "Failed to load customer data" "error", raised := none }
  match answer with
  | .error _ => failed s
  | .ok customer =>
    match updateCustomerDisplay customer with
    | .error _ => failed s
    | .ok _ => { session := resetSectionStates s, raised := none }

/-- `runAnalysis()` up to the `await` of `api.post`. -/
def runAnalysisStart (s : Session) : Started :=
  match s.currentCustomer with
  | none =>
    .returned { session := showNotification s "Please select a customer first" "error",
                raised := none }
  | some customerId =>
    if customerId = 0 then
      .returned { session := showNotification s "Please select a customer first" "error",
                  raised := none }
    else
      .awaiting
        (issue (updateProcessingStatus s .statusProfile .processing)
          (customerPost "/analyze-customer" customerId))
        (customerPost "/analyze-customer" customerId)

/-- `runAnalysis()` from the `await` on, resumed in the session `s` with the answer of the
transport: `currentCustomer` is read again for the cache key. -/
def runAnalysisResume (s : Session) (answer : Except String JVal) : Outcome :=
  let failed (t : Session) : Outcome :=
    { session := showNotification (updateProcessingStatus t .statusProfile .error)
        "Analysis failed" "error", raised := none }
  match answer with
  | .error _ => failed s
  | .ok result =>
    let s3 := { s with currentAnalysis := result }
    match setAnalysisCacheCurrent s3.storage s3.currentCustomer (.obj [("analysis", result)]) with
    | .error _ => failed s3
    | .ok storage =>
      let s4 := updateProcessingStatus { s3 with storage := storage } .statusProfile .complete
      match displayCustomerIntelligence s4.currentAnalysis with
      | .error _ => failed s4
      | .ok _ => { session := s4, raised := none }

/-- `runRecommendations()` up to the `await` of `api.post`. -/
def runRecommendationsStart (s : Session) : Started :=
  match s.currentCustomer with
  | none =>
    .returned { session := showNotification s "Please select a customer first" "error",
                raised := none }
  | some customerId =>
    if customerId = 0 then
      .returned { session := showNotification s "Please select a customer first" "error",
                  raised := none }
    else
      .awaiting
        (issue (updateProcessingStatus s .statusAnalysis .processing)
          (customerPost "/recommend-products" customerId))
        (customerPost "/recommend-products" customerId)

/-- `runRecommendations()` from the `await` on, resumed in the session `s` with the answer
of the transport: `currentCustomer` is read again for the cache key. -/
def runRecommendationsResume (s : Session) (answer : Except String JVal) : Outcome :=
  let failed (t : Session) : Outcome :=
    { session := showNotification (updateProcessingStatus t .statusAnalysis .error)
        "Failed to get recommendations" "error", raised := none }
  match answer with
  | .error _ => failed s
  | .ok result =>
    let s3 := { s with currentRecommendations := result }
    match setAnalysisCacheCurrent s3.storage s3.currentCustomer
        (.obj [("recommendations", result)]) with
    | .error _ => failed s3
    | .ok storage =>
      let s4 := updateProcessingStatus { s3 with storage := storage } .statusAnalysis .complete
      match displayProductRecommendations s4.currentRecommendations with
      | .error _ => failed s4
      | .ok _ => { session := s4, raised := none }

/-- The `catch` block of `runEmail()`. -/
def runEmailFailed (t : Session) : Outcome :=
  { session := showNotification
      (updateProcessingStatus (updateProcessingStatus t .statusProducts .error)
        .statusEmail .error)
      "Failed to generate email" "error", raised := none }

/-- `runEmail()` up to the `await` of `api.generateEmail`. -/
def runEmailStart (s : Session) : Started :=
  match s.currentCustomer with
  | none =>
    .returned { session := showNotification s "Please select a customer first" "error",
                raised := none }
  | some customerId =>
    if customerId = 0 then
      .returned { session := showNotification s "Please select a customer first" "error",
                  raised := none }
    else
      match recommendationsMissing s.currentRecommendations with
      | .error e => .returned { session := s, raised := some e }
      | .ok true =>
        .returned { session := showNotification s "Please get recommendations first" "error",
                    raised := none }
      | .ok false =>
        let s1 := updateProcessingStatus s .statusProducts .processing
        match topProductId s1.currentRecommendations with
        | .error _ => .returned (runEmailFailed s1)
        | .ok productId =>
          .awaiting (issue s1 (generateEmailRequest customerId productId))
            (generateEmailRequest customerId productId)

/-- `runEmail()` from the `await` on, resumed in the session `s` with the answer of the
transport: `currentCustomer` is read again for the cache key. -/
def runEmailResume (s : Session) (answer : Except String JVal) : Outcome :=
  match answer with
  | .error _ => runEmailFailed s
  | .ok result =>
    match setAnalysisCacheCurrent s.storage s.currentCustomer (.obj [("email", result)]) with
    | .error _ => runEmailFailed s
    | .ok storage =>
      let s3 := updateProcessingStatus
        (updateProcessingStatus { s with storage := storage } .statusProducts .complete)
        .statusEmail .complete
      match displayEmail s3 result with
      | .error _ => runEmailFailed s3
      | .ok s4 => { session := s4, raised := none }

/-- The actions of the session. -/
inductive Action where
  | loadCustomerProfile (customerId : Int)
  | resetApplication
  | runAnalysis
  | runRecommendations
  | runEmail
  | runMockups
  | startAnalysis

/-- Runs one action. -/
def runAction (api : Transport) (positive : JVal → Bool) (s : Session) : Action → Outcome
  | .loadCustomerProfile customerId => loadCustomerProfile api s customerId
  | .resetApplication => { session := resetApplication s, raised := none }
  | .runAnalysis => runAnalysis api s
  | .runRecommendations => runRecommendations api s
  | .runEmail => runEmail api s
  | .runMockups => runMockups api s
  | .startAnalysis => startAnalysis api positive s

/-- The session when the script has loaded: no customer, analysis or recommendations,
with the persisted cache blob and the status indicators as the page has them. -/
def initialSession (storage : LocalStorage) (status : Statuses) : Session :=
  { currentCustomer := none
    currentAnalysis := .null
    currentRecommendations := .null
    selectedProducts := []
    currentEmail := none
    storage := storage
    status := status
    notifications := []
    requests := []
    transitions := [] }

/-- The actions that are given in two parts. -/
inductive AsyncAction where
  | loadCustomerProfile (customerId : Int)
  | runAnalysis
  | runRecommendations
  | runEmail
  deriving DecidableEq, Repr

/-- The action as a whole. -/
def AsyncAction.toAction : AsyncAction → Action
  | .loadCustomerProfile customerId => .loadCustomerProfile customerId
  | .runAnalysis => .runAnalysis
  | .runRecommendations => .runRecommendations
  | .runEmail => .runEmail

/-- Runs an action up to its `await`. -/
def startAction (s : Session) : AsyncAction → Started
  | .loadCustomerProfile customerId => loadCustomerProfileStart s customerId
  | .runAnalysis => runAnalysisStart s
  | .runRecommendations => runRecommendationsStart s
  | .runEmail => runEmailStart s

/-- Resumes an action in the session `s` with the answer of the transport. -/
def resumeAction (s : Session) (answer : Except String JVal) : AsyncAction → Outcome
  | .loadCustomerProfile _ => loadCustomerProfileResume s answer
  | .runAnalysis => runAnalysisResume s answer
  | .runRecommendations => runRecommendationsResume s answer
  | .runEmail => runEmailResume s answer

/-- The sessions that the actions can reach, whatever the transport answers, each with
the actions that wait for an answer. An action runs in one step (`action`), or, for an
action given in two parts, it starts (`started`) and resumes at a later time
(`resumed`), with other actions between. The two awaits of `runMockups` and the three of
`startAnalysis` are only taken in one step, so the program can reach more sessions than
these. -/
inductive Reachable : Session → List AsyncAction → Prop where
  | initial (storage : LocalStorage) (status : Statuses) :
      Reachable (initialSession storage status) []
  | action (api : Transport) (positive : JVal → Bool) (s : Session) (w : List AsyncAction)
      (a : Action) :
      Reachable s w → Reachable (runAction api positive s a).session w
  | started (s : Session) (w : List AsyncAction) (k : AsyncAction) (t : Session)
      (req : Request) :
      Reachable s w → startAction s k = .awaiting t req → Reachable t (k :: w)
  | resumed (s : Session) (w : List AsyncAction) (k : AsyncAction)
      (answer : Except String JVal) :
      Reachable s w → k ∈ w → Reachable (resumeAction s answer k).session (w.erase k)

/-- The status changes that a run has added to the record of the session `s`. -/
def newTransitions (s t : Session) : List (StageId × Status × Status) :=
  t.transitions.drop s.transitions.length

/-- The notifications that a run has added to those of the session `s`. -/
def newNotifications (s t : Session) : List (String × String) :=
  t.notifications.drop s.notifications.length

/-- Spec wording: the legal transitions pending→processing, processing→complete,
processing→error, and any state→pending. -/
def legalTransition : Status → Status → Bool
  | _, .pending => true
  | .pending, .processing => true
  | .processing, .complete => true
  | .processing, .error => true
  | _, _ => false

/-- The status changes that an action applies when it runs in one step: any
state→pending; any state→processing for the profile, analysis and products stages;
processing→complete; processing→error and complete→error; and, for the email stage, a
move to complete or error from any state. -/
def appliedTransition : StageId × Status × Status → Bool
  | (_, _, .pending) => true
  | (.statusEmail, _, .processing) => false
  | (_, _, .processing) => true
  | (.statusEmail, _, _) => true
  | (_, .processing, .complete) => true
  | (_, .processing, .error) => true
  | (_, .complete, .error) => true
  | _ => false

/-- A transport that answers every request of the scenarios: an analysis, a list with one
recommended product (id 7), an email, and the customer record. -/
def scenarioTransport : Transport := fun req =>
  if req.endpoint = "/analyze-customer" then
    .ok (.obj [("confidence_score", .num 1),
      ("analysis", .obj [("company_profile", .str "Retailer")]),
      ("pain_points", .arr [.str "cost"]), ("opportunities", .arr [.str "growth"])])
  else if req.endpoint = "/recommend-products" then
    .ok (.obj [("recommendations", .arr [.obj [("product_id", .num 7),
      ("name", .str "Notebook"), ("match_score", .num 1)]])])
  else if req.endpoint = "/generate-email" then
    .ok (.obj [("subject", .str "Hello"), ("body", .str "Dear customer"),
      ("personalization_score", .num 1)])
  else
    .ok (.obj [("company", .obj [("name", .str "Acme"), ("industry", .str "Retail"),
        ("size", .str "Small")]),
      ("behavioral_data", .obj [("budget_range", .str "$10k")])])

/-- A transport that answers like `scenarioTransport`, except that the request for
recommendations gets the empty object `{}`. -/
def emptyObjectTransport : Transport := fun req =>
  if req.endpoint = "/recommend-products" then .ok (.obj []) else scenarioTransport req

/-- A transport whose every request fails. -/
def failingTransport : Transport := fun _ => .error "HTTP error! status: 500"

/-- All four indicators pending. -/
def allPending : Statuses :=
  { statusProfile := .pending, statusAnalysis := .pending, statusProducts := .pending,
    statusEmail := .pending }

/-- Spec wording: the action left the last-known-good configuration and surfaced exactly
one error notification: nothing escapes the action, `currentCustomer`, `currentAnalysis`,
`currentRecommendations` and the persisted cache blob are unchanged, and one notification
of type error was added. -/
def KeepsLastKnownGood (s : Session) (out : Outcome) : Prop :=
  out.raised = none ∧
  out.session.currentCustomer = s.currentCustomer ∧
  out.session.currentAnalysis = s.currentAnalysis ∧
  out.session.currentRecommendations = s.currentRecommendations ∧
  out.session.storage = s.storage ∧
  ∃ msg, out.session.notifications = s.notifications ++ [(msg, "error")]

/-! ## Scenarios and example data -/

/-- The scenario of three successive merges for one customer, `{analysis: A}`, then
`{recommendations: R}`, then `{email: E}`: the value of `isAnalysisCached` after each. -/
def mergeScenario (ls : LocalStorage) (customerId : Int) (A R E : JVal) :
    Except Exn (Bool × Bool × Bool) := do
  let s1 ← setAnalysisCache ls customerId (.obj [("analysis", A)])
  let s2 ← setAnalysisCache s1 customerId (.obj [("recommendations", R)])
  let s3 ← setAnalysisCache s2 customerId (.obj [("email", E)])
  pure (isAnalysisCached s1 customerId, isAnalysisCached s2 customerId,
    isAnalysisCached s3 customerId)

/-- A persisted cache for customer 42 whose `analysis` is `false`. -/
def cacheWithFalse : LocalStorage :=
  some (.json (.obj [("42", .obj [("analysis", .bool false),
    ("recommendations", .obj [("recommendations", .arr [.num 1])]),
    ("email", .obj [("subject", .str "Hi")])])]))

/-- A persisted cache for customer 42 whose `recommendations` is the empty array. -/
def cacheWithEmptyArray : LocalStorage :=
  some (.json (.obj [("42", .obj [("analysis", .obj [("confidence_score", .num 1)]),
    ("recommendations", .arr []),
    ("email", .obj [("subject", .str "Hi")])])]))

/-- Lower-casing of the ASCII letters, used for `toLowerCase` in the examples. -/
def asciiLower (s : String) : String :=
  ⟨s.data.map Char.toLower⟩

/-- The sign of `ToNumber` on the budget texts of the examples, used for `toNumberSign`:
the empty string converts to 0, and the other texts of the examples (`a`, `$10k`) are no
numeric literals and convert to `NaN`. -/
def textNumberSign (s : String) : NumberSign :=
  if s = "" then .zero else .nan

/-- The customer row "Acme / Retail" of the concrete scenario. -/
def acmeRetail : Customer :=
  { id := 1
    company := { name := "Acme", industry := "Retail", size := "Small", location := "Austin" }
    behavioral_data :=
      { budget_range := .undefined, pain_points := none, recent_activities := none } }

/-- The customer row "Beta / Tech" of the concrete scenario. -/
def betaTech : Customer :=
  { id := 2
    company := { name := "Beta", industry := "Tech", size := "Large", location := "Boston" }
    behavioral_data :=
      { budget_range := .str "$10k", pain_points := some ["cost", "speed"],
        recent_activities := some ["demo"] } }

/-- The session of the scenarios after customer 1 was selected and its analysis and
recommendations were loaded. -/
def sessionWithCustomer1 : Session :=
  (runRecommendations scenarioTransport
    (runAnalysis scenarioTransport
      (loadCustomerProfile scenarioTransport (initialSession none allPending) 1).session).session).session


/-- A customer row whose `budget_range` is the text `a`. -/
def budgetA : Customer :=
  { id := 1
    company := { name := "A Corp", industry := "Retail", size := "Small", location := "Austin" }
    behavioral_data :=
      { budget_range := .str "a", pain_points := none, recent_activities := none } }

/-- A customer row whose `budget_range` is `null`. -/
def budgetNull : Customer :=
  { id := 2
    company := { name := "B Ltd", industry := "Tech", size := "Large", location := "Boston" }
    behavioral_data :=
      { budget_range := .null, pain_points := none, recent_activities := none } }

/-- A customer row whose `budget_range` is the empty string. -/
def budgetEmpty : Customer :=
  { id := 3
    company := { name := "C Corp", industry := "Media", size := "Medium", location := "Denver" }
    behavioral_data :=
      { budget_range := .str "", pain_points := none, recent_activities := none } }

/-- The customers tab when it is shown first, with the rows Acme/Retail and Beta/Tech
loaded and the initial sort specification `{ column: 'company', asc: true }`. -/
def scenarioPage : CustomersPage :=
  CustomersPage.render asciiLower textNumberSign none
    { customersTableData := [acmeRetail, betaTech]
      customersTableSort := { column := "company", asc := true }
      searchBox := none
      rows := [] }

/-- A persisted cache in which the entry of customer 2 is complete and the entry of
customer 1 has an analysis only. -/
def cacheCustomer2Complete : LocalStorage :=
  some (.json (.obj [("1", .obj [("analysis", .obj [("confidence_score", .num 1)])]),
    ("2", .obj [("analysis", .obj [("confidence_score", .num 1)]),
      ("recommendations", .obj [("recommendations", .arr [.num 7])]),
      ("email", .obj [("subject", .str "Hi")])])]))

/-- The session after customer 1 was selected and the request for recommendations was
answered with the empty object `{}`. -/
def sessionWithEmptyObject : Session :=
  (runRecommendations emptyObjectTransport
    (loadCustomerProfile emptyObjectTransport (initialSession none allPending) 1).session).session

/-- The session in which `runAnalysis` for customer 1 waits for its answer. -/
def sessionAnalysisAwaiting : Session :=
  issue
    (updateProcessingStatus
      (loadCustomerProfile scenarioTransport (initialSession none allPending) 1).session
      .statusProfile .processing)
    (customerPost "/analyze-customer" 1)

/-- The session after customer 2 was selected while `runAnalysis` for customer 1 was
waiting for its answer. -/
def sessionReselected : Session :=
  (loadCustomerProfile scenarioTransport sessionAnalysisAwaiting 2).session
/-! ## Lemmas on property lists -/

theorem assocGet_assocSet_same (l : List (String × JVal)) (k : String) (v : JVal) :
    assocGet (assocSet l k v) k = some v := by
  induction l with
  | nil => simp [assocSet, assocGet]
  | cons hd tl ih =>
    obtain ⟨k', v'⟩ := hd
    by_cases h : k' = k
    · simp [assocSet, assocGet, h]
    · simp [assocSet, assocGet, h, ih]

theorem assocGet_assocSet_other (l : List (String × JVal)) (k j : String) (v : JVal)
    (hne : j ≠ k) : assocGet (assocSet l k v) j = assocGet l j := by
  induction l with
  | nil =>
    have : ¬ k = j := fun h => hne h.symm
    simp [assocSet, assocGet, this]
  | cons hd tl ih =>
    obtain ⟨k', v'⟩ := hd
    by_cases h : k' = k
    · have h1 : ¬ k = j := fun e => hne e.symm
      subst h
      simp [assocSet, assocGet, h1]
    · by_cases h3 : k' = j
      · subst h3
        simp [assocSet, assocGet, h]
      · simp [assocSet, assocGet, h, h3, ih]

theorem assocGet_eq_none_of_not_mem (l : List (String × JVal)) (k : String)
    (h : k ∉ l.map Prod.fst) : assocGet l k = none := by
  induction l with
  | nil => rfl
  | cons hd tl ih =>
    obtain ⟨k', v'⟩ := hd
    simp only [List.map_cons, List.mem_cons, not_or] at h
    have h1 : ¬ k' = k := fun e => h.1 e.symm
    simp [assocGet, h1, ih h.2]

/-- Lookup after copying properties with distinct keys: the copied value where the
source has the key, the target's value otherwise. -/
theorem assocGet_copyProps (src target : List (String × JVal)) (k : String)
    (hnodup : (src.map Prod.fst).Nodup) :
    assocGet (copyProps target src) k =
      match assocGet src k with
      | some v => some v
      | none => assocGet target k := by
  induction src generalizing target with
  | nil => simp [copyProps, assocGet]
  | cons hd tl ih =>
    obtain ⟨k1, v1⟩ := hd
    simp only [List.map_cons, List.nodup_cons] at hnodup
    have ih' := ih (assocSet target k1 v1) hnodup.2
    simp only [copyProps, List.foldl_cons] at ih' ⊢
    rw [ih']
    by_cases h : k1 = k
    · subst h
      simp [assocGet, assocGet_eq_none_of_not_mem tl k1 hnodup.1, assocGet_assocSet_same]
    · have h' : k ≠ k1 := fun e => h e.symm
      simp [assocGet, h, assocGet_assocSet_other _ _ _ _ h']

theorem toDigitsCore_append (fuel n : Nat) (ds : List Char) :
    Nat.toDigitsCore 10 fuel n ds = Nat.toDigitsCore 10 fuel n [] ++ ds := by
  induction fuel generalizing n ds with
  | zero => simp [Nat.toDigitsCore]
  | succ f ih =>
    simp only [Nat.toDigitsCore]
    split
    · simp
    · rw [ih (n / 10) (Nat.digitChar (n % 10) :: ds), ih (n / 10) [Nat.digitChar (n % 10)]]
      simp

theorem digitChar_isDigit (k : Nat) (hk : k < 10) :
    (Nat.digitChar k).isDigit = true ∧ (Nat.digitChar k).toNat - 48 = k := by
  interval_cases k <;> decide

theorem digitsValue_append (xs ys : List Char) (acc : Nat) :
    digitsValue? (xs ++ ys) acc =
      match digitsValue? xs acc with
      | some v => digitsValue? ys v
      | none => none := by
  induction xs generalizing acc with
  | nil => simp [digitsValue?]
  | cons c cs ih =>
    simp only [List.cons_append, digitsValue?]
    split
    · exact ih _
    · rfl

theorem digitsValue_toDigitsCore (fuel n : Nat) (h : n < fuel) :
    digitsValue? (Nat.toDigitsCore 10 fuel n []) 0 = some n := by
  induction fuel generalizing n with
  | zero => omega
  | succ f ih =>
    have hd := digitChar_isDigit (n % 10) (Nat.mod_lt _ (by decide))
    simp only [Nat.toDigitsCore]
    split
    · rename_i h0
      simp only [digitsValue?, hd.1, if_true, hd.2]
      congr 1
      omega
    · rename_i h0
      rw [toDigitsCore_append, digitsValue_append, ih (n / 10) (by omega)]
      simp only [digitsValue?, hd.1, if_true, hd.2]
      congr 1
      omega

theorem digitsValue_repr (n : Nat) : digitsValue? (toString n).data 0 = some n :=
  digitsValue_toDigitsCore (n + 1) n (Nat.lt_succ_self n)

theorem toString_nat_head (n : Nat) : ∃ c cs, (toString n).data = c :: cs ∧ c.isDigit = true := by
  have h := digitsValue_repr n
  cases hd : (toString n).data with
  | nil =>
    exfalso
    have : ∀ fuel m ds, 0 < fuel → Nat.toDigitsCore 10 fuel m ds ≠ [] := by
      intro fuel
      induction fuel with
      | zero => intro _ _ h; omega
      | succ f ih =>
        intro m ds _
        simp only [Nat.toDigitsCore]
        split
        · simp
        · rw [toDigitsCore_append]; simp
    exact this (n + 1) n [] (Nat.succ_pos n) hd
  | cons c cs =>
    refine ⟨c, cs, rfl, ?_⟩
    rw [hd] at h
    simp only [digitsValue?] at h
    by_contra hc
    simp [hc] at h

/-- Distinct customer ids have distinct property keys. -/
theorem propKey_injective : Function.Injective propKey := by
  intro a b hab
  unfold propKey at hab
  have hdata := congrArg String.data hab
  cases a with
  | ofNat m =>
    cases b with
    | ofNat k =>
      have h1 := digitsValue_repr m
      have h2 := digitsValue_repr k
      have : (toString (Int.ofNat m)).data = (toString m).data := rfl
      rw [this] at hdata
      have : (toString (Int.ofNat k)).data = (toString k).data := rfl
      rw [this] at hdata
      rw [hdata, h2] at h1
      exact congrArg Int.ofNat (Option.some.inj h1).symm
    | negSucc k =>
      exfalso
      obtain ⟨c, cs, hc, hdig⟩ := toString_nat_head m
      have e1 : (toString (Int.ofNat m)).data = (toString m).data := rfl
      have e2 : (toString (Int.negSucc k)).data = '-' :: (toString (k + 1)).data := rfl
      rw [e1, e2, hc] at hdata
      have := (List.cons.inj hdata).1
      subst this
      exact absurd hdig (by decide)
  | negSucc m =>
    cases b with
    | ofNat k =>
      exfalso
      obtain ⟨c, cs, hc, hdig⟩ := toString_nat_head k
      have e1 : (toString (Int.ofNat k)).data = (toString k).data := rfl
      have e2 : (toString (Int.negSucc m)).data = '-' :: (toString (m + 1)).data := rfl
      rw [e1, e2, hc] at hdata
      have := (List.cons.inj hdata).1
      subst this
      exact absurd hdig (by decide)
    | negSucc k =>
      have e1 : (toString (Int.negSucc m)).data = '-' :: (toString (m + 1)).data := rfl
      have e2 : (toString (Int.negSucc k)).data = '-' :: (toString (k + 1)).data := rfl
      rw [e1, e2] at hdata
      have ht := (List.cons.inj hdata).2
      have h1 := digitsValue_repr (m + 1)
      have h2 := digitsValue_repr (k + 1)
      rw [ht, h2] at h1
      have : k + 1 = m + 1 := Option.some.inj h1
      have : m = k := by omega
      rw [this]

theorem getAnalysisCache_json (v : JVal) : getAnalysisCache (some (.json v)) = .ok v := rfl

theorem getAnalysisCache_none : getAnalysisCache none = .ok (.obj []) := rfl

theorem getAnalysisCache_garbage (raw : String) :
    getAnalysisCache (some (.garbage raw)) = .ok (.obj []) := by
  unfold getAnalysisCache getItemOrEmptyObject
  by_cases h : raw = "" <;> simp [h, JSONparse]

/-- On a cache that is an object, `setAnalysisCache` stores the spread of the previous
entry and the data under the customer's key. -/
theorem setAnalysisCache_obj (ls : LocalStorage) (kvs : List (String × JVal))
    (customerId : Int) (data : JVal) (hcache : getAnalysisCache ls = .ok (.obj kvs)) :
    setAnalysisCache ls customerId data =
      .ok (some (.json (.obj (assocSet kvs (propKey customerId)
        (spread2 (assocGet kvs (propKey customerId)) (some data)))))) := by
  simp [setAnalysisCache, hcache, getProp, setProp, bind, Except.bind, pure, Except.pure]

/-! ## The cache store -/

theorem getProp_name (e : JVal) (k : String) (hk : k ≠ "length") (hi : arrayIndex? k = none) :
    getProp e k = (match e with
      | .null => .error .typeError
      | .obj kvs => .ok (assocGet kvs k)
      | _ => .ok none) := by
  cases e <;> simp [getProp, hk, hi]

theorem isAnalysisCached_of_entry (ls : LocalStorage) (customerId : Int) (cache : JVal)
    (entry : Option JVal) (hc : getAnalysisCache ls = .ok cache)
    (he : getProp cache (propKey customerId) = .ok entry) :
    isAnalysisCached ls customerId =
      match entry with
      | none => false
      | some e => propTruthy e "analysis" && propTruthy e "recommendations" &&
          propTruthy e "email" := by
  have ha := fun e => getProp_name e "analysis" (by decide) (by decide)
  have hr := fun e => getProp_name e "recommendations" (by decide) (by decide)
  have hm := fun e => getProp_name e "email" (by decide) (by decide)
  cases entry with
  | none =>
    simp [isAnalysisCached, isAnalysisCachedTry, hc, he, andThen, truthyOpt, bind, Except.bind,
      pure, Except.pure]
  | some e =>
    cases e with
    | obj kvs =>
      simp only [isAnalysisCached, isAnalysisCachedTry, hc, he, andThen, bind,
        Except.bind, pure, Except.pure, getPropOpt, propTruthy, ha, hr, hm]
      have hobj : truthyOpt (some (JVal.obj kvs)) = true := rfl
      simp only [hobj, if_true]
      cases h1 : assocGet kvs "analysis" with
      | none => simp [truthyOpt]
      | some a =>
        cases t1 : truthy a with
        | false => simp [truthyOpt, t1]
        | true =>
          cases h2 : assocGet kvs "recommendations" with
          | none => simp [truthyOpt, t1]
          | some r =>
            cases t2 : truthy r with
            | false => simp [truthyOpt, t1, t2]
            | true => cases h3 : assocGet kvs "email" <;> simp [truthyOpt, t1, t2]
    | null =>
      simp [isAnalysisCached, isAnalysisCachedTry, hc, he, andThen, truthyOpt, bind,
        Except.bind, pure, Except.pure, getPropOpt, propTruthy, ha, truthy]
    | bool b =>
      cases b <;> simp [isAnalysisCached, isAnalysisCachedTry, hc, he, andThen, truthyOpt, bind,
        Except.bind, pure, Except.pure, getPropOpt, propTruthy, ha, hr, hm, truthy]
    | num n =>
      by_cases hn : n = 0 <;> simp [isAnalysisCached, isAnalysisCachedTry, hc, he, andThen,
        truthyOpt, bind, Except.bind, pure, Except.pure, getPropOpt, propTruthy, ha, hr, hm,
        truthy, hn]
    | str s =>
      by_cases hs : s = "" <;> simp [isAnalysisCached, isAnalysisCachedTry, hc, he, andThen,
        truthyOpt, bind, Except.bind, pure, Except.pure, getPropOpt, propTruthy, ha, hr, hm,
        truthy, hs]
    | arr xs =>
      simp [isAnalysisCached, isAnalysisCachedTry, hc, he, andThen, truthyOpt, bind,
        Except.bind, pure, Except.pure, getPropOpt, propTruthy, ha, hr, hm, truthy]

theorem getAnalysisCache_total (ls : LocalStorage) : ∃ cache, getAnalysisCache ls = .ok cache := by
  cases ls with
  | none => exact ⟨_, rfl⟩
  | some b =>
    cases b with
    | garbage raw => exact ⟨_, getAnalysisCache_garbage raw⟩
    | json v => exact ⟨_, rfl⟩

theorem propTruthy_iff (e : JVal) (k : String) :
    propTruthy e k = true ↔ ∃ a, getProp e k = .ok (some a) ∧ truthy a = true := by
  unfold propTruthy
  cases h : getProp e k with
  | error x => simp
  | ok v =>
    cases v with
    | none => simp [truthyOpt]
    | some a => simp [truthyOpt]

theorem isAnalysisCached_of_error (ls : LocalStorage) (customerId : Int) (cache : JVal) (x : Exn)
    (hc : getAnalysisCache ls = .ok cache)
    (he : getProp cache (propKey customerId) = .error x) :
    isAnalysisCached ls customerId = false := by
  simp [isAnalysisCached, isAnalysisCachedTry, hc, he, bind, Except.bind]

/-- The value of `isAnalysisCached` is true exactly when the entry of the customer is
complete. -/
theorem isAnalysisCached_true_iff (ls : LocalStorage) (customerId : Int) :
    isAnalysisCached ls customerId = true ↔ EntryComplete ls customerId := by
  unfold EntryComplete
  obtain ⟨cache, hc⟩ := getAnalysisCache_total ls
  constructor
  · intro h
    cases he : getProp cache (propKey customerId) with
    | error x => rw [isAnalysisCached_of_error ls customerId cache x hc he] at h; cases h
    | ok entry =>
      rw [isAnalysisCached_of_entry ls customerId cache entry hc he] at h
      cases entry with
      | none => cases h
      | some en =>
        simp only [Bool.and_eq_true, propTruthy_iff] at h
        obtain ⟨⟨⟨a, ha, ta⟩, ⟨r, hr, tr⟩⟩, ⟨e, hm, te⟩⟩ := h
        exact ⟨cache, en, a, r, e, hc, he, ha, hr, hm, ta, tr, te⟩
  · rintro ⟨cache', en, a, r, e, hc', he, ha, hr, hm, ta, tr, te⟩
    rw [isAnalysisCached_of_entry ls customerId cache' (some en) hc' he]
    simp only [Bool.and_eq_true, propTruthy_iff]
    exact ⟨⟨⟨a, ha, ta⟩, ⟨r, hr, tr⟩⟩, ⟨e, hm, te⟩⟩

/-- C2 (as amended): `isAnalysisCached(id)` is true exactly when the cache has an entry for
`id` whose properties `analysis`, `recommendations` and `email` are all present and truthy
(not `null`, `false`, `0` or `''`; an empty array or object counts as present). -/
theorem isAnalysisCached_iff_truthy (ls : LocalStorage) (customerId : Int) :
    isAnalysisCached ls customerId = true ↔
      ∃ cache entry a r e,
        getAnalysisCache ls = .ok cache ∧
        getProp cache (propKey customerId) = .ok (some entry) ∧
        getProp entry "analysis" = .ok (some a) ∧
        getProp entry "recommendations" = .ok (some r) ∧
        getProp entry "email" = .ok (some e) ∧
        truthy a = true ∧ truthy r = true ∧ truthy e = true :=
  isAnalysisCached_true_iff ls customerId

/-- C2 (as stated) fails in both directions: an entry whose `analysis` is `false` (not null,
not empty) is not reported complete, and an entry whose `recommendations` is the empty
array is reported complete. -/
theorem isAnalysisCached_not_nonNullNonEmpty :
    ¬ (isAnalysisCached cacheWithFalse 42 = true ↔ specIsComplete cacheWithFalse 42) ∧
    ¬ (isAnalysisCached cacheWithEmptyArray 42 = true ↔
        specIsComplete cacheWithEmptyArray 42) := by
  constructor
  · intro h
    have hs : specIsComplete cacheWithFalse 42 :=
      ⟨_, _, _, _, _, rfl, rfl, rfl, rfl, rfl, rfl, rfl, rfl⟩
    have hf : isAnalysisCached cacheWithFalse 42 = false := by decide
    rw [hf] at h
    exact Bool.false_ne_true (h.mpr hs)
  · intro h
    have ht : isAnalysisCached cacheWithEmptyArray 42 = true := by decide
    obtain ⟨cache, entry, a, r, e, hc, he, ha, hr, hm, na, nr, ne⟩ := h.mp ht
    have h1 : cache = _ := (Except.ok.inj hc).symm
    subst h1
    have h2 : entry = _ := (Option.some.inj (Except.ok.inj he)).symm
    subst h2
    have h3 : r = _ := (Option.some.inj (Except.ok.inj hr)).symm
    subst h3
    cases nr

/-- C1: on a cache that is an object, `setAnalysisCache(id, p)` persists for `id` the
shallow merge of the previous entry (the empty entry when there was none) with `p`:
every key of `p` holds the value given by `p`, and every other key holds exactly what
the previous entry held (nothing is dropped, nothing else is added). Objects are
property lists with distinct keys. -/
theorem setAnalysisCache_shallow_merge (ls : LocalStorage) (kvs : List (String × JVal))
    (customerId : Int) (p : List (String × JVal))
    (hcache : getAnalysisCache ls = .ok (.obj kvs))
    (hprev : ((ownProps (assocGet kvs (propKey customerId))).map Prod.fst).Nodup)
    (hp : (p.map Prod.fst).Nodup) :
    ∃ ls' cache' entry,
      setAnalysisCache ls customerId (.obj p) = .ok ls' ∧
      getAnalysisCache ls' = .ok cache' ∧
      getProp cache' (propKey customerId) = .ok (some (.obj entry)) ∧
      (∀ k v, assocGet p k = some v → assocGet entry k = some v) ∧
      (∀ k, assocGet p k = none →
        assocGet entry k = assocGet (ownProps (assocGet kvs (propKey customerId))) k) := by
  refine ⟨_, _, copyProps (copyProps [] (ownProps (assocGet kvs (propKey customerId)))) p,
    setAnalysisCache_obj ls kvs customerId (.obj p) hcache, rfl, ?_, ?_, ?_⟩
  · simp only [getProp, assocGet_assocSet_same, spread2]
    rfl
  · intro k v hk
    rw [assocGet_copyProps _ _ _ hp, hk]
  · intro k hk
    rw [assocGet_copyProps _ _ _ hp, hk]
    simp only
    rw [assocGet_copyProps _ _ _ hprev]
    cases assocGet (ownProps (assocGet kvs (propKey customerId))) k <;> simp [assocGet]

theorem setAnalysisCache_shallow_merge_witness :
    ∃ ls' cache' entry,
      setAnalysisCache (some (.json (.obj [("42", .obj [("analysis", .num 7)])]))) 42
        (.obj [("email", .str "hello")]) = .ok ls' ∧
      getAnalysisCache ls' = .ok cache' ∧
      getProp cache' (propKey 42) = .ok (some (.obj entry)) ∧
      (∀ k v, assocGet [("email", JVal.str "hello")] k = some v → assocGet entry k = some v) ∧
      (∀ k, assocGet [("email", JVal.str "hello")] k = none →
        assocGet entry k = assocGet (ownProps (assocGet [("42", JVal.obj [("analysis", .num 7)])]
          (propKey 42))) k) :=
  setAnalysisCache_shallow_merge (some (.json (.obj [("42", .obj [("analysis", .num 7)])])))
    [("42", .obj [("analysis", .num 7)])] 42 [("email", .str "hello")] rfl
    (by decide) (by decide)

theorem propTruthy_obj (kvs : List (String × JVal)) (k : String) :
    propTruthy (.obj kvs) k = truthyOpt (assocGet kvs k) := rfl

/-- After a write of entry `e` under the customer's key, `isAnalysisCached` tests `e`. -/
theorem isAnalysisCached_assocSet (kvs : List (String × JVal)) (customerId : Int) (e : JVal) :
    isAnalysisCached (some (.json (.obj (assocSet kvs (propKey customerId) e)))) customerId =
      (propTruthy e "analysis" && propTruthy e "recommendations" && propTruthy e "email") :=
  isAnalysisCached_of_entry _ customerId _ (some e) (getAnalysisCache_json _)
    (by simp only [getProp, assocGet_assocSet_same])

/-- C3 (as amended): starting from a cache without an entry for the customer, and for
truthy values `A`, `R`, `E`: after merging `{analysis: A}` the entry is not complete,
after then merging `{recommendations: R}` it is still not complete, and after then
merging `{email: E}` it is complete. -/
theorem mergeScenario_truthy (ls : LocalStorage) (kvs : List (String × JVal))
    (customerId : Int) (A R E : JVal)
    (hcache : getAnalysisCache ls = .ok (.obj kvs))
    (habsent : assocGet kvs (propKey customerId) = none)
    (hA : truthy A = true) (hR : truthy R = true) (hE : truthy E = true) :
    mergeScenario ls customerId A R E = .ok (false, false, true) := by
  have e1 := setAnalysisCache_obj ls kvs customerId (.obj [("analysis", A)]) hcache
  rw [habsent] at e1
  have e2 := setAnalysisCache_obj _ _ customerId (.obj [("recommendations", R)])
    (getAnalysisCache_json (.obj (assocSet kvs (propKey customerId)
      (spread2 none (some (.obj [("analysis", A)]))))))
  rw [assocGet_assocSet_same] at e2
  have e3 := setAnalysisCache_obj _ _ customerId (.obj [("email", E)])
    (getAnalysisCache_json (.obj (assocSet (assocSet kvs (propKey customerId)
      (spread2 none (some (.obj [("analysis", A)])))) (propKey customerId)
      (spread2 (some (spread2 none (some (.obj [("analysis", A)]))))
        (some (.obj [("recommendations", R)]))))))
  rw [assocGet_assocSet_same] at e3
  simp only [mergeScenario, e1, e2, e3, bind, Except.bind, pure, Except.pure,
    isAnalysisCached_assocSet]
  simp [spread2, copyProps, ownProps, assocSet, propTruthy_obj, assocGet, truthyOpt, hA, hR, hE]

theorem mergeScenario_truthy_witness :
    mergeScenario none 42 (.obj [("confidence_score", .num 1)]) (.obj [("recommendations", .arr [])])
      (.obj [("subject", .str "Hi")]) = .ok (false, false, true) :=
  mergeScenario_truthy none [] 42 _ _ _ rfl rfl rfl rfl rfl

/-- C3 (as stated) fails: `false` is a non-null value, and with `A = false` the entry is
still not complete after the third merge. -/
theorem mergeScenario_non_null_false :
    JVal.bool false ≠ JVal.null ∧
    JVal.obj [("recommendations", .arr [.num 1])] ≠ JVal.null ∧
    JVal.obj [("subject", .str "Hi")] ≠ JVal.null ∧
    mergeScenario none 42 (.bool false) (.obj [("recommendations", .arr [.num 1])])
      (.obj [("subject", .str "Hi")]) = .ok (false, false, false) :=
  ⟨nofun, nofun, nofun, rfl⟩

/-- C4: `getAnalysisCache` returns without raising for every persisted value; for an absent
key and for text that `JSON.parse` rejects it returns the empty cache, for JSON text the
parsed value; on an absent or malformed blob `isAnalysisCached` is false for every id. -/
theorem getAnalysisCache_fail_soft :
    (∀ ls, ∃ cache, getAnalysisCache ls = .ok cache) ∧
    getAnalysisCache none = .ok (.obj []) ∧
    (∀ raw, getAnalysisCache (some (.garbage raw)) = .ok (.obj [])) ∧
    (∀ v, getAnalysisCache (some (.json v)) = .ok v) ∧
    (∀ customerId, isAnalysisCached none customerId = false) ∧
    (∀ raw customerId, isAnalysisCached (some (.garbage raw)) customerId = false) := by
  refine ⟨getAnalysisCache_total, rfl, getAnalysisCache_garbage, fun _ => rfl, ?_, ?_⟩
  · intro customerId
    exact isAnalysisCached_of_entry none customerId (.obj []) none rfl rfl
  · intro raw customerId
    exact isAnalysisCached_of_entry _ customerId (.obj []) none (getAnalysisCache_garbage raw) rfl

/-- On text that `JSON.parse` rejects, `setAnalysisCache` starts from the empty cache. -/
theorem setAnalysisCache_garbage (raw : String) (customerId : Int) (data : JVal) :
    setAnalysisCache (some (.garbage raw)) customerId data =
      .ok (some (.json (.obj [(propKey customerId, spread2 none (some data))]))) :=
  setAnalysisCache_obj _ [] customerId data (getAnalysisCache_garbage raw)

/-- C5 (code defect): when the persisted blob is the JSON text `null`, `getAnalysisCache`
returns `null` and `setAnalysisCache` raises a `TypeError` to its caller, for every
customer id and data, instead of starting from the empty cache. -/
theorem setAnalysisCache_null_blob_raises (customerId : Int) (data : JVal) :
    setAnalysisCache (some (.json .null)) customerId data = .error .typeError := rfl

/-- When the persisted blob is a JSON number the write is lost: the blob is unchanged. -/
theorem setAnalysisCache_num_blob (n : Int) (customerId : Int) (data : JVal) :
    setAnalysisCache (some (.json (.num n))) customerId data = .ok (some (.json (.num n))) := rfl

/-! ## The customers table and the products grid -/

theorem compareKeys_self {κ : Type} [LinearOrder κ] (asc : Bool) (x : κ) :
    compareKeys asc x x = 0 := by
  simp [compareKeys]

theorem compareKeys_neg_iff {κ : Type} [LinearOrder κ] (asc : Bool) (x y : κ) :
    compareKeys asc x y < 0 ↔ (if asc then x < y else y < x) := by
  unfold compareKeys
  rcases lt_trichotomy x y with h | h | h
  · cases asc <;> simp [h, lt_asymm h]
  · subst h; cases asc <;> simp
  · cases asc <;> simp [h, lt_asymm h]

theorem compareKeys_pos_iff {κ : Type} [LinearOrder κ] (asc : Bool) (x y : κ) :
    0 < compareKeys asc x y ↔ (if asc then y < x else x < y) := by
  unfold compareKeys
  rcases lt_trichotomy x y with h | h | h
  · cases asc <;> simp [h, lt_asymm h]
  · subst h; cases asc <;> simp
  · cases asc <;> simp [h, lt_asymm h]

theorem compareKeys_zero_iff {κ : Type} [LinearOrder κ] (asc : Bool) (x y : κ) :
    compareKeys asc x y = 0 ↔ x = y := by
  unfold compareKeys
  rcases lt_trichotomy x y with h | h | h
  · cases asc <;> simp [h, ne_of_lt h]
  · subst h; simp
  · cases asc <;> simp [h, lt_asymm h, ne_of_gt h]

/-- A comparator that compares keys of a linear order is a strict weak ordering. -/
theorem isStrictWeakOrdering_compareKeys {α κ : Type} [LinearOrder κ] (asc : Bool)
    (key : α → κ) : IsStrictWeakOrdering (fun a b => compareKeys asc (key a) (key b)) := by
  refine ⟨?_, ?_, ?_, ?_⟩
  · intro a
    simp [compareKeys_self]
  · intro a b
    simp only [compareKeys_neg_iff, compareKeys_pos_iff]
  · intro a b c
    simp only [compareKeys_neg_iff]
    cases asc
    · simpa using fun h1 h2 => lt_trans h2 h1
    · simpa using fun h1 h2 => lt_trans h1 h2
  · intro a b c
    simp only [compareKeys_zero_iff]
    exact fun h1 h2 => h1.trans h2

theorem withoutNull_eq_self (c : Customer) (h : c.behavioral_data.budget_range ≠ .null) :
    withoutNull c = c := by
  obtain ⟨id, company, ⟨budget, pain, recent⟩⟩ := c
  cases budget with
  | null => exact absurd rfl h
  | undefined => rfl
  | str s => rfl

/-- For a row whose budget is not null when the budget is the sort column, the guard
against null changes nothing in the value compared. -/
theorem sortVal_withoutNull (ls : LocalStorage) (column : String) (c : Customer)
    (h : column = "budget" → c.behavioral_data.budget_range ≠ .null) :
    sortVal ls column (withoutNull c) = sortVal ls column c := by
  by_cases h5 : column = "budget"
  · rw [withoutNull_eq_self c (h h5)]
  · unfold sortVal
    simp only [h5, if_false]
    rfl

/-- In each column all rows, with the guard against null, give a string, or all rows
give a number. -/
theorem sortVal_withoutNull_kind (ls : LocalStorage) (column : String) :
    (∃ f : Customer → String,
      ∀ c, undefinedToEmpty (sortVal ls column (withoutNull c)) = .str (f c)) ∨
    (∃ g : Customer → Int,
      ∀ c, undefinedToEmpty (sortVal ls column (withoutNull c)) = .num (g c)) := by
  by_cases h1 : column = "company"
  · exact .inl ⟨fun c => c.company.name, fun c => by
      simp [sortVal, h1, undefinedToEmpty, withoutNull]⟩
  by_cases h2 : column = "industry"
  · exact .inl ⟨fun c => c.company.industry, fun c => by
      simp [sortVal, h2, undefinedToEmpty, withoutNull]⟩
  by_cases h3 : column = "size"
  · exact .inl ⟨fun c => c.company.size, fun c => by
      simp [sortVal, h3, undefinedToEmpty, withoutNull]⟩
  by_cases h4 : column = "location"
  · exact .inl ⟨fun c => c.company.location, fun c => by
      simp [sortVal, h4, undefinedToEmpty, withoutNull]⟩
  by_cases h5 : column = "budget"
  · refine .inl ⟨fun c => c.behavioral_data.budget_range.orEmpty, fun c => ?_⟩
    obtain ⟨id, company, ⟨budget, pain, recent⟩⟩ := c
    cases budget <;> simp [sortVal, h5, undefinedToEmpty, withoutNull, BudgetRange.orEmpty]
  by_cases h6 : column = "pain_points"
  · exact .inl ⟨fun c => join (c.behavioral_data.pain_points.getD []) ", ",
      fun c => by simp [sortVal, h6, undefinedToEmpty, withoutNull]⟩
  by_cases h7 : column = "last_activity"
  · exact .inl ⟨fun c => firstActivity c.behavioral_data.recent_activities,
      fun c => by simp [sortVal, h7, undefinedToEmpty, withoutNull]⟩
  by_cases h8 : column = "reachout_ready"
  · exact .inr ⟨fun c => if isAnalysisCached ls c.id then 1 else 0,
      fun c => by simp [sortVal, h8, undefinedToEmpty, withoutNull]⟩
  · exact .inl ⟨fun _ => "", fun c => by simp [sortVal, h1, h2, h3, h4, h5, h6, h7, h8,
      undefinedToEmpty]⟩

/-- With the guard against null, the comparator compares keys of a linear order:
code-unit sequences or integers. -/
theorem compareCustomers_withoutNull_eq_compareKeys (toNumberSign : String → NumberSign)
    (ls : LocalStorage) (sort : SortSpec) :
    (∃ key : Customer → List Nat,
      (fun a b => compareCustomers toNumberSign ls sort (withoutNull a) (withoutNull b)) =
        fun a b => compareKeys sort.asc (key a) (key b)) ∨
    (∃ key : Customer → Int,
      (fun a b => compareCustomers toNumberSign ls sort (withoutNull a) (withoutNull b)) =
        fun a b => compareKeys sort.asc (key a) (key b)) := by
  rcases sortVal_withoutNull_kind ls sort.column with ⟨f, hf⟩ | ⟨g, hg⟩
  · refine .inl ⟨fun c => codeUnits (f c), ?_⟩
    funext a b
    simp [compareCustomers, hf, jsLt, compareKeys]
  · refine .inr ⟨g, ?_⟩
    funext a b
    simp [compareCustomers, hg, jsLt, compareKeys]

/-- On rows whose budget is not null when the budget is the sort column, the comparator
is the comparator with the guard against null. -/
theorem compareCustomers_withoutNull (toNumberSign : String → NumberSign) (ls : LocalStorage)
    (sort : SortSpec) (a b : Customer)
    (ha : sort.column = "budget" → a.behavioral_data.budget_range ≠ .null)
    (hb : sort.column = "budget" → b.behavioral_data.budget_range ≠ .null) :
    compareCustomers toNumberSign ls sort (withoutNull a) (withoutNull b) =
      compareCustomers toNumberSign ls sort a b := by
  unfold compareCustomers
  rw [sortVal_withoutNull ls sort.column a ha, sortVal_withoutNull ls sort.column b hb]

/-- With the guard against null the comparator is a strict weak ordering. -/
theorem isStrictWeakOrdering_withoutNull (toNumberSign : String → NumberSign)
    (ls : LocalStorage) (sort : SortSpec) :
    IsStrictWeakOrdering
      (fun a b => compareCustomers toNumberSign ls sort (withoutNull a) (withoutNull b)) := by
  rcases compareCustomers_withoutNull_eq_compareKeys toNumberSign ls sort with
    ⟨key, h⟩ | ⟨key, h⟩
  · rw [h]; exact isStrictWeakOrdering_compareKeys sort.asc key
  · rw [h]; exact isStrictWeakOrdering_compareKeys sort.asc key

theorem sortVal_fillMissing (ls : LocalStorage) (column : String) (c : Customer) :
    undefinedToEmpty (sortVal ls column (fillMissing c)) =
      undefinedToEmpty (sortVal ls column c) := by
  obtain ⟨id, company, ⟨budget, pain, recent⟩⟩ := c
  unfold sortVal
  by_cases h5 : column = "budget"
  · have n1 : ¬ column = "company" := by rw [h5]; decide
    have n2 : ¬ column = "industry" := by rw [h5]; decide
    have n3 : ¬ column = "size" := by rw [h5]; decide
    have n4 : ¬ column = "location" := by rw [h5]; decide
    simp only [n1, n2, n3, n4, h5, if_true, if_false]
    cases budget <;> rfl
  · simp only [h5, if_false]
    cases pain <;> cases recent <;> rfl

/-- C10 (code defect): the comparator of the customers table is not a strict weak
ordering when the table is sorted by budget, in either direction and for every cache
state: a row with the budget `null` ties with a row with the budget `a` and with a row
with the empty budget, while those two rows do not tie. A row whose sort field is
missing (`undefined`) does compare as the row with the empty string (empty list) in its
place, and with the guard `||''` against null, which the search filter and the row
template have, the comparator is a strict weak ordering for every sort specification. -/
theorem compareCustomers_null_budget (toNumberSign : String → NumberSign)
    (h0 : toNumberSign "" = .zero) (ha : toNumberSign "a" = .nan) (ls : LocalStorage)
    (asc : Bool) :
    compareCustomers toNumberSign ls { column := "budget", asc := asc } budgetA budgetNull = 0 ∧
    compareCustomers toNumberSign ls { column := "budget", asc := asc } budgetNull budgetEmpty
      = 0 ∧
    compareCustomers toNumberSign ls { column := "budget", asc := asc } budgetA budgetEmpty =
      (if asc then 1 else -1) ∧
    ¬ IsStrictWeakOrdering (compareCustomers toNumberSign ls { column := "budget", asc := asc }) ∧
    (∀ sort a b,
      compareCustomers toNumberSign ls sort (fillMissing a) b =
        compareCustomers toNumberSign ls sort a b ∧
      compareCustomers toNumberSign ls sort a (fillMissing b) =
        compareCustomers toNumberSign ls sort a b) ∧
    ∀ sort, IsStrictWeakOrdering
      (fun a b => compareCustomers toNumberSign ls sort (withoutNull a) (withoutNull b)) := by
  have e1 : compareCustomers toNumberSign ls { column := "budget", asc := asc } budgetA
      budgetNull = 0 := by
    simp [compareCustomers, sortVal, undefinedToEmpty, jsLt, budgetA, budgetNull, ha]
  have e2 : compareCustomers toNumberSign ls { column := "budget", asc := asc } budgetNull
      budgetEmpty = 0 := by
    simp [compareCustomers, sortVal, undefinedToEmpty, jsLt, budgetNull, budgetEmpty, h0]
  have e3 : compareCustomers toNumberSign ls { column := "budget", asc := asc } budgetA
      budgetEmpty = (if asc then 1 else -1) := by
    have hlt : jsLt toNumberSign (.str "a") (.str "") = false := by
      show decide (codeUnits "a" < codeUnits "") = false
      decide
    have hgt : jsLt toNumberSign (.str "") (.str "a") = true := by
      show decide (codeUnits "" < codeUnits "a") = true
      decide
    simp [compareCustomers, sortVal, undefinedToEmpty, budgetA, budgetEmpty, hlt, hgt]
  refine ⟨e1, e2, e3, ?_, ?_, isStrictWeakOrdering_withoutNull toNumberSign ls⟩
  · intro h
    have h13 := h.2.2.2 _ _ _ e1 e2
    rw [e3] at h13
    cases asc <;> simp at h13
  · intro sort a b
    simp only [compareCustomers, sortVal_fillMissing]
    exact ⟨trivial, trivial⟩

theorem compareCustomers_null_budget_witness :
    compareCustomers textNumberSign none { column := "budget", asc := true } budgetA budgetNull
      = 0 ∧
    compareCustomers textNumberSign none { column := "budget", asc := true } budgetNull
      budgetEmpty = 0 ∧
    compareCustomers textNumberSign none { column := "budget", asc := true } budgetA budgetEmpty
      = 1 ∧
    ¬ IsStrictWeakOrdering
      (compareCustomers textNumberSign none { column := "budget", asc := true }) :=
  have h := compareCustomers_null_budget textNumberSign rfl rfl none true
  ⟨h.1, h.2.1, h.2.2.1, h.2.2.2.1⟩

theorem searchPredicate_iff (toLowerCase : String → String) (searchVal : String) (c : Customer) :
    searchPredicate toLowerCase searchVal c = true ↔
      ∃ f ∈ searchableFields c, containsIgnoringCase toLowerCase f searchVal := by
  simp [searchPredicate, searchableFields, containsIgnoringCase, includes, or_assoc]

theorem mem_jsSort {α : Type} (cmp : α → α → Int) (xs : List α) (x : α) :
    x ∈ jsSort cmp xs ↔ x ∈ xs :=
  (List.perm_insertionSort _ xs).mem_iff

/-- C6: for every customer row list and search text `s`, a row is in the visible output of
the customers table if and only if it is a row of the list and `s` is empty or at least one
of its searchable fields (company name, industry, size, location, budget range, the
pain points joined by a comma) contains `s` as a case-insensitive substring. -/
theorem visibleCustomers_iff_search (toLowerCase : String → String)
    (toNumberSign : String → NumberSign) (ls : LocalStorage)
    (sort : SortSpec) (s : String) (customersTableData : List Customer) (c : Customer) :
    c ∈ visibleCustomers toLowerCase toNumberSign ls sort s customersTableData ↔
      c ∈ customersTableData ∧
        (s = "" ∨ ∃ f ∈ searchableFields c, containsIgnoringCase toLowerCase f s) := by
  unfold visibleCustomers
  cases customersTableData with
  | nil => simp
  | cons hd tl =>
    simp only [List.isEmpty_cons, Bool.false_eq_true, if_false, mem_jsSort, searchFilter]
    by_cases hs : s = ""
    · simp [hs]
    · simp only [hs, ne_eq, not_false_eq_true, if_true, List.mem_filter, searchPredicate_iff,
        false_or]

/-- C7: the products shown are exactly the products of the list, in their order, for which
the category filter is the sentinel `All` or equals the product's category. -/
theorem renderProductsGridUI_eq_filter (f : String) (productsGridData : List Product) :
    renderProductsGridUI f productsGridData =
        productsGridData.filter (fun p => decide (f = "All" ∨ p.category = f)) ∧
      (∀ p, p ∈ renderProductsGridUI f productsGridData ↔
        p ∈ productsGridData ∧ (f = "All" ∨ p.category = f)) ∧
      (renderProductsGridUI f productsGridData).Sublist productsGridData := by
  have h : renderProductsGridUI f productsGridData =
      productsGridData.filter (fun p => decide (f = "All" ∨ p.category = f)) := by
    unfold renderProductsGridUI
    cases productsGridData with
    | nil => simp
    | cons hd tl =>
      by_cases hf : f = "All"
      · simp [hf]
      · simp [hf]
  refine ⟨h, ?_, ?_⟩
  · intro p
    rw [h]
    simp
  · rw [h]
    exact List.filter_sublist _

theorem thOnclick_eq (sort : SortSpec) (idx : Fin columns.length) :
    thOnclick sort idx = specSetSort sort (columns.get idx).1 := by
  show (if sort.column = (columns.get idx).1 then { sort with asc := !sort.asc }
    else ({ column := (columns.get idx).1, asc := true } : SortSpec)) = _
  unfold specSetSort
  generalize (columns.get idx).1 = k
  by_cases hc : sort.column = k
  · rw [if_pos hc, if_pos hc.symm]
  · rw [if_neg hc, if_neg (fun e => hc e.symm)]

theorem specSetSort_twice_same (sort : SortSpec) :
    specSetSort (specSetSort sort sort.column) sort.column = sort := by
  obtain ⟨col, asc⟩ := sort
  simp [specSetSort]

theorem specSetSort_twice_other (sort : SortSpec) (k : String) (h : k ≠ sort.column) :
    specSetSort (specSetSort sort k) k = { column := k, asc := false } := by
  simp [specSetSort, h]

/-- C8: the click handler of the header of a declared column `k` yields `(column, not asc)`
when `k` is the current sort column and `(k, true)` otherwise; every declared column key
has such a header. -/
theorem thOnclick_eq_specSetSort (sort : SortSpec) :
    (∀ idx : Fin columns.length, thOnclick sort idx = specSetSort sort (columns.get idx).1) ∧
    (∀ k ∈ columns.map Prod.fst, ∃ idx : Fin columns.length,
      (columns.get idx).1 = k ∧
      thOnclick sort idx =
        if k = sort.column then { column := sort.column, asc := !sort.asc }
        else { column := k, asc := true }) := by
  have h := thOnclick_eq sort
  refine ⟨h, ?_⟩
  intro k hk
  obtain ⟨p, hp, rfl⟩ := List.mem_map.mp hk
  obtain ⟨idx, hidx⟩ := List.get_of_mem hp
  exact ⟨idx, by rw [hidx], by rw [h idx, hidx]; rfl⟩

/-- C9 (as stated) fails: with the table sorted by company ascending, two clicks on the
`industry` header leave the sort specification `(industry, descending)`, and the rows
Acme/Retail, Beta/Tech are displayed in the opposite order. -/
theorem thOnclick_twice_other_column :
    thOnclick (thOnclick { column := "company", asc := true } ⟨1, by decide⟩) ⟨1, by decide⟩ =
      { column := "industry", asc := false } ∧
    visibleCustomers asciiLower textNumberSign none { column := "company", asc := true } ""
      [acmeRetail, betaTech] = [acmeRetail, betaTech] ∧
    visibleCustomers asciiLower textNumberSign none
      (thOnclick (thOnclick { column := "company", asc := true } ⟨1, by decide⟩) ⟨1, by decide⟩)
      "" [acmeRetail, betaTech] = [betaTech, acmeRetail] := by
  decide

/-- Two clicks on the header of a column `k` other than the current sort column leave the
sort specification `(k, descending)`. -/
theorem thOnclick_twice_other (sort : SortSpec) (idx : Fin columns.length)
    (h : (columns.get idx).1 ≠ sort.column) :
    thOnclick (thOnclick sort idx) idx = { column := (columns.get idx).1, asc := false } := by
  rw [thOnclick_eq (thOnclick sort idx), thOnclick_eq sort]
  exact specSetSort_twice_other sort _ h

/-- C9 (as amended): two clicks on the header of the current sort column return the sort
specification to its original value, and hence the displayed rows to their original
order, for every row list, search text and cache state. -/
theorem thOnclick_twice_current_column (sort : SortSpec) (idx : Fin columns.length)
    (h : (columns.get idx).1 = sort.column) :
    thOnclick (thOnclick sort idx) idx = sort ∧
    ∀ (toLowerCase : String → String) (toNumberSign : String → NumberSign)
      (ls : LocalStorage) (s : String) (customersTableData : List Customer),
      visibleCustomers toLowerCase toNumberSign ls (thOnclick (thOnclick sort idx) idx) s
        customersTableData =
      visibleCustomers toLowerCase toNumberSign ls sort s customersTableData := by
  have h2 : thOnclick (thOnclick sort idx) idx = sort := by
    rw [thOnclick_eq (thOnclick sort idx), thOnclick_eq sort, h]
    exact specSetSort_twice_same sort
  exact ⟨h2, fun _ _ _ _ _ => by rw [h2]⟩

theorem thOnclick_twice_current_column_witness :
    thOnclick (thOnclick { column := "industry", asc := false } ⟨1, by decide⟩) ⟨1, by decide⟩ =
      { column := "industry", asc := false } ∧
    ∀ (toLowerCase : String → String) (toNumberSign : String → NumberSign)
      (ls : LocalStorage) (s : String) (customersTableData : List Customer),
      visibleCustomers toLowerCase toNumberSign ls
        (thOnclick (thOnclick { column := "industry", asc := false } ⟨1, by decide⟩)
          ⟨1, by decide⟩) s customersTableData =
        visibleCustomers toLowerCase toNumberSign ls { column := "industry", asc := false } s
          customersTableData :=
  thOnclick_twice_current_column { column := "industry", asc := false } ⟨1, by decide⟩ rfl

/-! ## Sorting -/

theorem compareKeys_le_iff {κ : Type} [LinearOrder κ] (asc : Bool) (x y : κ) :
    compareKeys asc x y ≤ 0 ↔ (if asc then x ≤ y else y ≤ x) := by
  unfold compareKeys
  rcases lt_trichotomy x y with h | h | h
  · cases asc <;> simp [h, lt_asymm h, le_of_lt h, not_le_of_lt h]
  · subst h; cases asc <;> simp
  · cases asc <;> simp [h, lt_asymm h, le_of_lt h, not_le_of_lt h]

theorem compareCustomers_withoutNull_total (toNumberSign : String → NumberSign)
    (ls : LocalStorage) (sort : SortSpec) (a b : Customer) :
    compareCustomers toNumberSign ls sort (withoutNull a) (withoutNull b) ≤ 0 ∨
      compareCustomers toNumberSign ls sort (withoutNull b) (withoutNull a) ≤ 0 := by
  rcases compareCustomers_withoutNull_eq_compareKeys toNumberSign ls sort with
    ⟨key, h⟩ | ⟨key, h⟩ <;>
  · have hab := congrFun (congrFun h a) b
    have hba := congrFun (congrFun h b) a
    simp only at hab hba
    rw [hab, hba]
    simp only [compareKeys_le_iff]
    cases sort.asc
    · simpa using le_total (key b) (key a)
    · simpa using le_total (key a) (key b)

theorem compareCustomers_withoutNull_trans (toNumberSign : String → NumberSign)
    (ls : LocalStorage) (sort : SortSpec) (a b c : Customer)
    (hab : compareCustomers toNumberSign ls sort (withoutNull a) (withoutNull b) ≤ 0)
    (hbc : compareCustomers toNumberSign ls sort (withoutNull b) (withoutNull c) ≤ 0) :
    compareCustomers toNumberSign ls sort (withoutNull a) (withoutNull c) ≤ 0 := by
  rcases compareCustomers_withoutNull_eq_compareKeys toNumberSign ls sort with
    ⟨key, h⟩ | ⟨key, h⟩ <;>
  · have e1 := congrFun (congrFun h a) b
    have e2 := congrFun (congrFun h b) c
    have e3 := congrFun (congrFun h a) c
    simp only at e1 e2 e3
    rw [e1] at hab
    rw [e2] at hbc
    rw [e3]
    simp only [compareKeys_le_iff] at hab hbc ⊢
    cases hasc : sort.asc
    · simp only [hasc] at hab hbc
      simpa using le_trans hbc hab
    · simp only [hasc] at hab hbc
      simpa using le_trans hab hbc

theorem compareCustomers_withoutNull_tie (toNumberSign : String → NumberSign)
    (ls : LocalStorage) (sort : SortSpec) (x a b : Customer)
    (ha : compareCustomers toNumberSign ls sort (withoutNull x) (withoutNull a) = 0)
    (hb : compareCustomers toNumberSign ls sort (withoutNull x) (withoutNull b) = 0) :
    compareCustomers toNumberSign ls sort (withoutNull a) (withoutNull b) = 0 :=
  have h := isStrictWeakOrdering_withoutNull toNumberSign ls sort
  have hxa : compareCustomers toNumberSign ls sort (withoutNull a) (withoutNull x) = 0 := by
    have h1 := (h.2.1 x a)
    have h2 := (h.2.1 a x)
    simp only at h1 h2
    omega
  h.2.2.2 a x b hxa hb

/-- Ordered insertion only looks at the relation between the inserted element and the
elements of the list. -/
theorem orderedInsert_congr {α : Type} (r r' : α → α → Prop) [DecidableRel r]
    [DecidableRel r'] (a : α) (l : List α) (h : ∀ b ∈ l, (r a b ↔ r' a b)) :
    l.orderedInsert r a = l.orderedInsert r' a := by
  induction l with
  | nil => rfl
  | cons b l ih =>
    have hb := h b (List.mem_cons_self _ _)
    have ih' := ih (fun c hc => h c (List.mem_cons_of_mem _ hc))
    by_cases hr : r a b
    · simp [List.orderedInsert, hr, hb.mp hr]
    · have hr' : ¬ r' a b := fun x => hr (hb.mpr x)
      simp [List.orderedInsert, hr, hr', ih']

/-- Insertion sort only looks at the relation between the elements of the list. -/
theorem insertionSort_congr {α : Type} (r r' : α → α → Prop) [DecidableRel r]
    [DecidableRel r'] (l : List α) (h : ∀ a ∈ l, ∀ b ∈ l, (r a b ↔ r' a b)) :
    l.insertionSort r = l.insertionSort r' := by
  induction l with
  | nil => rfl
  | cons a l ih =>
    simp only [List.insertionSort]
    rw [ih (fun x hx y hy => h x (List.mem_cons_of_mem _ hx) y (List.mem_cons_of_mem _ hy))]
    apply orderedInsert_congr
    intro b hb
    have hb' : b ∈ l := (List.perm_insertionSort r' l).mem_iff.mp hb
    exact h a (List.mem_cons_self _ _) b (List.mem_cons_of_mem _ hb')

theorem NoNullBudget.of_subset {sort : SortSpec} {xs ys : List Customer}
    (h : NoNullBudget sort ys) (hsub : ∀ c ∈ xs, c ∈ ys) : NoNullBudget sort xs :=
  fun hcol c hc => h hcol c (hsub c hc)

/-- On a list without a null budget in the sort column, the sort is the sort with the
guard against null. -/
theorem jsSort_eq_withoutNull (toNumberSign : String → NumberSign) (ls : LocalStorage)
    (sort : SortSpec) (xs : List Customer) (h : NoNullBudget sort xs) :
    jsSort (compareCustomers toNumberSign ls sort) xs =
      jsSort (fun a b => compareCustomers toNumberSign ls sort (withoutNull a) (withoutNull b))
        xs := by
  unfold jsSort
  apply insertionSort_congr
  intro a ha b hb
  show _ ↔ compareCustomers toNumberSign ls sort (withoutNull a) (withoutNull b) ≤ 0
  rw [compareCustomers_withoutNull toNumberSign ls sort a b (fun hc => h hc a ha)
    (fun hc => h hc b hb)]

/-- Filtering after an ordered insertion into a sorted list is the ordered insertion into
the filtered list (when the inserted element is kept). -/
theorem filter_orderedInsert {α : Type} (r : α → α → Prop) [DecidableRel r]
    (htrans : ∀ a b c, r a b → r b c → r a c) (p : α → Bool) (a : α) (l : List α)
    (hs : l.Sorted r) :
    (l.orderedInsert r a).filter p =
      if p a then (l.filter p).orderedInsert r a else l.filter p := by
  induction l with
  | nil => by_cases hp : p a <;> simp [hp]
  | cons b l ih =>
    have hs' : l.Sorted r := hs.of_cons
    have hb : ∀ c ∈ l, r b c := fun c hc => List.rel_of_sorted_cons hs c hc
    by_cases hab : r a b
    · have hall : ∀ c ∈ (b :: l).filter p, r a c := by
        intro c hc
        rcases List.mem_cons.mp (List.mem_of_mem_filter hc) with rfl | hcl
        · exact hab
        · exact htrans _ _ _ hab (hb c hcl)
      have hins : ∀ m : List α, (∀ c ∈ m, r a c) → m.orderedInsert r a = a :: m := by
        intro m hm
        cases m with
        | nil => rfl
        | cons c m => simp [List.orderedInsert, hm c (List.mem_cons_self _ _)]
      rw [hins _ hall]
      simp only [List.orderedInsert, hab, if_true]
      by_cases hp : p a
      · simp [hp]
      · simp [hp]
    · simp only [List.orderedInsert, hab, if_false]
      by_cases hpb : p b
      · simp only [List.filter_cons, hpb, if_true, ih hs']
        by_cases hp : p a
        · simp [hp, List.orderedInsert, hab]
        · simp [hp]
      · simp only [List.filter_cons, hpb, ih hs']
        simp

/-- A stable sort commutes with filtering. -/
theorem filter_insertionSort {α : Type} (r : α → α → Prop) [DecidableRel r]
    (htotal : ∀ a b, r a b ∨ r b a) (htrans : ∀ a b c, r a b → r b c → r a c)
    (p : α → Bool) (l : List α) :
    (l.insertionSort r).filter p = (l.filter p).insertionSort r := by
  haveI : IsTotal α r := ⟨htotal⟩
  haveI : IsTrans α r := ⟨htrans⟩
  induction l with
  | nil => rfl
  | cons a l ih =>
    have hsorted : (l.insertionSort r).Sorted r := List.sorted_insertionSort r l
    simp only [List.insertionSort]
    rw [filter_orderedInsert r htrans p a _ hsorted, ih]
    by_cases hp : p a
    · simp [hp, List.insertionSort]
    · simp [hp]

/-- The result of `jsSort` with the table comparator is sorted, when no row has a null
budget in the sort column: no row is followed by a row that the comparator puts strictly
before it. -/
theorem jsSort_compareCustomers_sorted (toNumberSign : String → NumberSign)
    (ls : LocalStorage) (sort : SortSpec) (xs : List Customer) (h : NoNullBudget sort xs) :
    (jsSort (compareCustomers toNumberSign ls sort) xs).Pairwise
      (fun a b => compareCustomers toNumberSign ls sort a b ≤ 0) := by
  rw [jsSort_eq_withoutNull toNumberSign ls sort xs h]
  haveI : IsTotal Customer
      (fun a b => compareCustomers toNumberSign ls sort (withoutNull a) (withoutNull b) ≤ 0) :=
    ⟨compareCustomers_withoutNull_total toNumberSign ls sort⟩
  haveI : IsTrans Customer
      (fun a b => compareCustomers toNumberSign ls sort (withoutNull a) (withoutNull b) ≤ 0) :=
    ⟨compareCustomers_withoutNull_trans toNumberSign ls sort⟩
  have hs : (jsSort
      (fun a b => compareCustomers toNumberSign ls sort (withoutNull a) (withoutNull b))
      xs).Pairwise
      (fun a b => compareCustomers toNumberSign ls sort (withoutNull a) (withoutNull b) ≤ 0) :=
    List.sorted_insertionSort _ xs
  refine hs.imp_of_mem ?_
  intro a b ha hb hab
  have ha' := (mem_jsSort _ xs a).mp ha
  have hb' := (mem_jsSort _ xs b).mp hb
  rw [← compareCustomers_withoutNull toNumberSign ls sort a b (fun hc => h hc a ha')
    (fun hc => h hc b hb')]
  exact hab

theorem jsSort_filter_compareCustomers (toNumberSign : String → NumberSign)
    (ls : LocalStorage) (sort : SortSpec) (p : Customer → Bool) (xs : List Customer)
    (h : NoNullBudget sort xs) :
    (jsSort (compareCustomers toNumberSign ls sort) xs).filter p =
      jsSort (compareCustomers toNumberSign ls sort) (xs.filter p) := by
  rw [jsSort_eq_withoutNull toNumberSign ls sort xs h,
    jsSort_eq_withoutNull toNumberSign ls sort (xs.filter p)
      (h.of_subset (fun c hc => List.mem_of_mem_filter hc))]
  exact filter_insertionSort _ (compareCustomers_withoutNull_total toNumberSign ls sort)
    (compareCustomers_withoutNull_trans toNumberSign ls sort) p xs

/-- `jsSort` keeps a list that is already in order. -/
theorem jsSort_eq_self_of_sorted (toNumberSign : String → NumberSign) (ls : LocalStorage)
    (sort : SortSpec) (xs : List Customer)
    (h : xs.Pairwise (fun a b => compareCustomers toNumberSign ls sort a b ≤ 0)) :
    jsSort (compareCustomers toNumberSign ls sort) xs = xs :=
  List.Sorted.insertionSort_eq h

/-- For a column key that is not a declared column every comparison gives 0. -/
theorem compareCustomers_unknown_column (toNumberSign : String → NumberSign)
    (ls : LocalStorage) (sort : SortSpec)
    (h : sort.column ∉ columns.map Prod.fst) (a b : Customer) :
    compareCustomers toNumberSign ls sort a b = 0 := by
  simp only [columns, List.map_cons, List.map_nil, List.mem_cons, List.mem_singleton,
    List.not_mem_nil, or_false, not_or] at h
  obtain ⟨h1, h2, h3, h4, h5, h6, h7, h8⟩ := h
  simp [compareCustomers, sortVal, h1, h2, h3, h4, h5, h6, h7, h8, undefinedToEmpty, jsLt]

theorem visibleCustomers_eq (toLowerCase : String → String)
    (toNumberSign : String → NumberSign) (ls : LocalStorage)
    (sort : SortSpec) (s : String) (customersTableData : List Customer) :
    visibleCustomers toLowerCase toNumberSign ls sort s customersTableData =
      jsSort (compareCustomers toNumberSign ls sort)
        (searchFilter toLowerCase s customersTableData) := by
  unfold visibleCustomers
  cases customersTableData with
  | nil =>
    by_cases hs : s = "" <;> simp [searchFilter, hs, jsSort]
  | cons hd tl => simp

/-- C11: the sort of the customers table is stable, when the comparator is consistent on
the filtered rows, that is, when none of them has a null budget in the sort column. Two
rows that compare equal and stand in the order `a`, `b` in the filtered source list stand
in that order in the output; the rows that tie with any given row (without a null budget
either) appear in the output exactly as in the filtered source list; and for a column
key that is not a declared column all rows compare equal and the output is the filtered
input, for either direction and all rows. -/
theorem visibleCustomers_stable (toLowerCase : String → String)
    (toNumberSign : String → NumberSign) (ls : LocalStorage)
    (sort : SortSpec) (s : String) (customersTableData : List Customer) :
    (∀ a b, NoNullBudget sort (searchFilter toLowerCase s customersTableData) →
      compareCustomers toNumberSign ls sort a b = 0 →
      List.Sublist [a, b] (searchFilter toLowerCase s customersTableData) →
      List.Sublist [a, b]
        (visibleCustomers toLowerCase toNumberSign ls sort s customersTableData)) ∧
    (∀ x, NoNullBudget sort (x :: searchFilter toLowerCase s customersTableData) →
      (visibleCustomers toLowerCase toNumberSign ls sort s customersTableData).filter
        (fun y => decide (compareCustomers toNumberSign ls sort x y = 0)) =
      (searchFilter toLowerCase s customersTableData).filter
        (fun y => decide (compareCustomers toNumberSign ls sort x y = 0))) ∧
    (sort.column ∉ columns.map Prod.fst →
      (∀ a b, compareCustomers toNumberSign ls sort a b = 0) ∧
      visibleCustomers toLowerCase toNumberSign ls sort s customersTableData =
        searchFilter toLowerCase s customersTableData) := by
  rw [visibleCustomers_eq]
  refine ⟨?_, ?_, ?_⟩
  · intro a b _ hab hsub
    exact List.pair_sublist_insertionSort
      (r := fun a b => compareCustomers toNumberSign ls sort a b ≤ 0) (le_of_eq hab) hsub
  · intro x hx
    have hrows : NoNullBudget sort (searchFilter toLowerCase s customersTableData) :=
      hx.of_subset (fun c hc => List.mem_cons_of_mem _ hc)
    have hxok : sort.column = "budget" → x.behavioral_data.budget_range ≠ .null :=
      fun hc => hx hc x (List.mem_cons_self _ _)
    rw [jsSort_filter_compareCustomers toNumberSign ls sort _ _ hrows]
    apply jsSort_eq_self_of_sorted
    rw [List.pairwise_iff_forall_sublist]
    intro a b hsub
    have ha : a ∈ (searchFilter toLowerCase s customersTableData).filter
        (fun y => decide (compareCustomers toNumberSign ls sort x y = 0)) :=
      hsub.subset (List.mem_cons_self _ _)
    have hb : b ∈ (searchFilter toLowerCase s customersTableData).filter
        (fun y => decide (compareCustomers toNumberSign ls sort x y = 0)) :=
      hsub.subset (List.mem_cons_of_mem _ (List.mem_cons_self _ _))
    have ha' := of_decide_eq_true (List.mem_filter.mp ha).2
    have hb' := of_decide_eq_true (List.mem_filter.mp hb).2
    have haok : sort.column = "budget" → a.behavioral_data.budget_range ≠ .null :=
      fun hc => hrows hc a (List.mem_filter.mp ha).1
    have hbok : sort.column = "budget" → b.behavioral_data.budget_range ≠ .null :=
      fun hc => hrows hc b (List.mem_filter.mp hb).1
    rw [← compareCustomers_withoutNull toNumberSign ls sort x a hxok haok] at ha'
    rw [← compareCustomers_withoutNull toNumberSign ls sort x b hxok hbok] at hb'
    rw [← compareCustomers_withoutNull toNumberSign ls sort a b haok hbok]
    exact le_of_eq (compareCustomers_withoutNull_tie toNumberSign ls sort x a b ha' hb')
  · intro hcol
    refine ⟨compareCustomers_unknown_column toNumberSign ls sort hcol, ?_⟩
    apply jsSort_eq_self_of_sorted
    exact List.pairwise_of_forall
      (fun a b => le_of_eq (compareCustomers_unknown_column toNumberSign ls sort hcol a b))

/-- C12 (code defect): the displayed sequence is a permutation of the rows that pass the
search filter, but it is not always ordered by the budget: the rows with the budgets `a`,
`null` and the empty string, in this order, are displayed in this order when the table is
sorted by budget, ascending and descending alike, although the empty string is smaller
than `a`. -/
theorem visibleCustomers_perm_not_ordered (toLowerCase : String → String)
    (toNumberSign : String → NumberSign) (ls : LocalStorage)
    (sort : SortSpec) (s : String) (customersTableData : List Customer) :
    (visibleCustomers toLowerCase toNumberSign ls sort s customersTableData).Perm
      (customersTableData.filter
        (fun c => decide (s = "") || searchPredicate toLowerCase s c)) ∧
    visibleCustomers asciiLower textNumberSign none { column := "budget", asc := true } ""
      [budgetA, budgetNull, budgetEmpty] = [budgetA, budgetNull, budgetEmpty] ∧
    visibleCustomers asciiLower textNumberSign none { column := "budget", asc := false } ""
      [budgetA, budgetNull, budgetEmpty] = [budgetA, budgetNull, budgetEmpty] ∧
    codeUnits budgetEmpty.behavioral_data.budget_range.orEmpty <
      codeUnits budgetA.behavioral_data.budget_range.orEmpty := by
  refine ⟨?_, by decide, by decide, by decide⟩
  rw [visibleCustomers_eq]
  have hf : searchFilter toLowerCase s customersTableData =
      customersTableData.filter
        (fun c => decide (s = "") || searchPredicate toLowerCase s c) := by
    unfold searchFilter
    by_cases hs : s = ""
    · simp [hs]
    · simp [hs]
  rw [← hf]
  exact List.perm_insertionSort _ _

/-- C13 (code defect): every render replaces the search box by an empty one, so the filter
is lost at the next render: with the rows Acme/Retail and Beta/Tech sorted by company
ascending the table shows Acme, Beta; the search text `tech` shows Beta; after a click
on the company header the table shows Beta, Acme, not Beta alone. As a function of the
search text, sorting the filtered list gives the same sequence as filtering the sorted
full list when no row has a null budget in the sort column; with the rows of budget `a`,
`null` and the empty string, sorted by budget, the two sequences differ. -/
theorem customersPage_click_loses_search :
    (∀ (toLowerCase : String → String) (toNumberSign : String → NumberSign)
      (ls : LocalStorage) (sort : SortSpec) (s : String) (customersTableData : List Customer),
      NoNullBudget sort customersTableData →
      visibleCustomers toLowerCase toNumberSign ls sort s customersTableData =
        searchFilter toLowerCase s
          (visibleCustomers toLowerCase toNumberSign ls sort "" customersTableData)) ∧
    scenarioPage.rows.map Prod.fst = [acmeRetail, betaTech] ∧
    (CustomersPage.input asciiLower textNumberSign none scenarioPage "tech").rows.map Prod.fst
      = [betaTech] ∧
    (CustomersPage.input asciiLower textNumberSign none scenarioPage "tech").searchBox
      = some "" ∧
    (CustomersPage.click asciiLower textNumberSign none
      (CustomersPage.input asciiLower textNumberSign none scenarioPage "tech")
      ⟨0, by decide⟩).customersTableSort = { column := "company", asc := false } ∧
    (CustomersPage.click asciiLower textNumberSign none
      (CustomersPage.input asciiLower textNumberSign none scenarioPage "tech")
      ⟨0, by decide⟩).rows.map Prod.fst = [betaTech, acmeRetail] ∧
    visibleCustomers asciiLower textNumberSign none { column := "budget", asc := true } "corp"
      [budgetA, budgetNull, budgetEmpty] = [budgetEmpty, budgetA] ∧
    searchFilter asciiLower "corp"
      (visibleCustomers asciiLower textNumberSign none { column := "budget", asc := true } ""
        [budgetA, budgetNull, budgetEmpty]) = [budgetA, budgetEmpty] := by
  refine ⟨?_, by decide, by decide, by decide, by decide, by decide, by decide, by decide⟩
  intro toLowerCase toNumberSign ls sort s customersTableData hnull
  rw [visibleCustomers_eq, visibleCustomers_eq]
  have h0 : searchFilter toLowerCase "" customersTableData = customersTableData := by
    simp [searchFilter]
  rw [h0]
  unfold searchFilter
  by_cases hs : s = ""
  · simp [hs]
  · simp only [hs, ne_eq, not_false_eq_true, if_true]
    exact (jsSort_filter_compareCustomers toNumberSign ls sort _ _ hnull).symm

/-- In the column `reachout_ready` the comparator compares the ready flags. -/
theorem compareCustomers_reachout_ready (toNumberSign : String → NumberSign)
    (ls : LocalStorage) (sort : SortSpec) (hcol : sort.column = "reachout_ready")
    (a b : Customer) :
    compareCustomers toNumberSign ls sort a b ≤ 0 ↔
      (if sort.asc then ¬ (isAnalysisCached ls a.id = true ∧ isAnalysisCached ls b.id = false)
       else ¬ (isAnalysisCached ls a.id = false ∧ isAnalysisCached ls b.id = true)) := by
  simp only [compareCustomers, sortVal, hcol, undefinedToEmpty, jsLt]
  cases isAnalysisCached ls a.id <;> cases isAnalysisCached ls b.id <;>
    cases sort.asc <;> simp

/-- C19: the ready flag of every displayed row is `isAnalysisCached(row.id)` on the cache at
render time, which is true exactly when the cache entry of the row is complete; and when
the table is sorted by `reachout_ready`, ascending, no row whose entry is complete stands
before a row whose entry is not complete (the reverse when descending). -/
theorem renderCustomersTableUI_ready (toLowerCase : String → String)
    (toNumberSign : String → NumberSign) (ls : LocalStorage)
    (sort : SortSpec) (s : String) (customersTableData : List Customer) :
    (∀ row ∈ renderCustomersTableUI toLowerCase toNumberSign ls sort s customersTableData,
      row.2 = isAnalysisCached ls row.1.id ∧ (row.2 = true ↔ EntryComplete ls row.1.id)) ∧
    (renderCustomersTableUI toLowerCase toNumberSign ls sort s customersTableData).map Prod.fst =
      visibleCustomers toLowerCase toNumberSign ls sort s customersTableData ∧
    (sort.column = "reachout_ready" →
      (renderCustomersTableUI toLowerCase toNumberSign ls sort s customersTableData).Pairwise
        (fun x y =>
          if sort.asc then ¬ (EntryComplete ls x.1.id ∧ ¬ EntryComplete ls y.1.id)
          else ¬ (¬ EntryComplete ls x.1.id ∧ EntryComplete ls y.1.id))) := by
  refine ⟨?_, ?_, ?_⟩
  · intro row hrow
    obtain ⟨c, _, rfl⟩ := List.mem_map.mp hrow
    exact ⟨rfl, isAnalysisCached_true_iff ls c.id⟩
  · simp [renderCustomersTableUI, Function.comp_def]
  · intro hcol
    unfold renderCustomersTableUI
    rw [List.pairwise_map, visibleCustomers_eq]
    have hnull : NoNullBudget sort (searchFilter toLowerCase s customersTableData) := by
      intro hb
      rw [hcol] at hb
      exact absurd hb (by decide)
    refine (jsSort_compareCustomers_sorted toNumberSign ls sort _ hnull).imp
      (fun {a b} h => ?_)
    have h' := (compareCustomers_reachout_ready toNumberSign ls sort hcol a b).mp h
    simp only [← isAnalysisCached_true_iff]
    revert h'
    cases isAnalysisCached ls a.id <;> cases isAnalysisCached ls b.id <;>
      cases sort.asc <;> simp

theorem renderCustomersTableUI_ready_witness :
    renderCustomersTableUI asciiLower textNumberSign cacheCustomer2Complete
        { column := "reachout_ready", asc := true } "" [betaTech, acmeRetail] =
      [(acmeRetail, false), (betaTech, true)] ∧
    EntryComplete cacheCustomer2Complete betaTech.id ∧
    ¬ EntryComplete cacheCustomer2Complete acmeRetail.id ∧
    (renderCustomersTableUI asciiLower textNumberSign cacheCustomer2Complete
        { column := "reachout_ready", asc := true } "" [betaTech, acmeRetail]).Pairwise
      (fun x y =>
        if ({ column := "reachout_ready", asc := true } : SortSpec).asc
        then ¬ (EntryComplete cacheCustomer2Complete x.1.id ∧
          ¬ EntryComplete cacheCustomer2Complete y.1.id)
        else ¬ (¬ EntryComplete cacheCustomer2Complete x.1.id ∧
          EntryComplete cacheCustomer2Complete y.1.id)) :=
  ⟨by decide,
   (isAnalysisCached_true_iff cacheCustomer2Complete betaTech.id).mp (by decide),
   fun h => absurd ((isAnalysisCached_true_iff cacheCustomer2Complete acmeRetail.id).mpr h)
     (by decide),
   (renderCustomersTableUI_ready asciiLower textNumberSign cacheCustomer2Complete
    { column := "reachout_ready", asc := true } "" [betaTech, acmeRetail]).2.2 rfl⟩

/-- Two storage states in which the customer has the same entry give the same value of
`isAnalysisCached`. -/
theorem isAnalysisCached_congr (ls ls' : LocalStorage) (j : Int) (cache cache' : JVal)
    (entry : Option JVal) (hc : getAnalysisCache ls = .ok cache)
    (hc' : getAnalysisCache ls' = .ok cache')
    (he : getProp cache (propKey j) = .ok entry)
    (he' : getProp cache' (propKey j) = .ok entry) :
    isAnalysisCached ls' j = isAnalysisCached ls j := by
  cases entry with
  | none =>
    rw [isAnalysisCached_of_entry ls' j cache' none hc' he',
      isAnalysisCached_of_entry ls j cache none hc he]
  | some e =>
    rw [isAnalysisCached_of_entry ls' j cache' (some e) hc' he',
      isAnalysisCached_of_entry ls j cache (some e) hc he]

/-- C20: on a cache that is an object, `setAnalysisCache(id, p)` leaves the entry of every
other customer `j` as it was (absent if it was absent), so `isAnalysisCached(j)` has the
same value before and after. -/
theorem setAnalysisCache_frame (ls : LocalStorage) (kvs : List (String × JVal))
    (customerId j : Int) (p : JVal)
    (hcache : getAnalysisCache ls = .ok (.obj kvs)) (hne : j ≠ customerId) :
    ∃ ls' kvs',
      setAnalysisCache ls customerId p = .ok ls' ∧
      getAnalysisCache ls' = .ok (.obj kvs') ∧
      assocGet kvs' (propKey j) = assocGet kvs (propKey j) ∧
      isAnalysisCached ls' j = isAnalysisCached ls j := by
  have hkey : propKey j ≠ propKey customerId := fun h => hne (propKey_injective h)
  refine ⟨_, _, setAnalysisCache_obj ls kvs customerId p hcache, rfl,
    assocGet_assocSet_other _ _ _ _ hkey, ?_⟩
  exact isAnalysisCached_congr ls _ j (.obj kvs) _ (assocGet kvs (propKey j)) hcache
    (getAnalysisCache_json _) rfl
    (by simp only [getProp, assocGet_assocSet_other _ _ _ _ hkey])

theorem setAnalysisCache_frame_witness :
    ∃ ls' kvs',
      setAnalysisCache (some (.json (.obj [("7", .obj [("analysis", .num 1)])]))) 42
        (.obj [("email", .str "hello")]) = .ok ls' ∧
      getAnalysisCache ls' = .ok (.obj kvs') ∧
      assocGet kvs' (propKey 7) = assocGet [("7", JVal.obj [("analysis", .num 1)])] (propKey 7) ∧
      isAnalysisCached ls' 7 =
        isAnalysisCached (some (.json (.obj [("7", .obj [("analysis", .num 1)])]))) 7 :=
  setAnalysisCache_frame (some (.json (.obj [("7", .obj [("analysis", .num 1)])])))
    [("7", .obj [("analysis", .num 1)])] 42 7 (.obj [("email", .str "hello")]) rfl (by decide)

/-! ## Session state -/

theorem resetSectionStates_fields (s : Session) :
    (resetSectionStates s).currentCustomer = s.currentCustomer ∧
    (resetSectionStates s).currentAnalysis = s.currentAnalysis ∧
    (resetSectionStates s).currentRecommendations = s.currentRecommendations ∧
    (resetSectionStates s).selectedProducts = s.selectedProducts ∧
    (resetSectionStates s).currentEmail = s.currentEmail ∧
    (resetSectionStates s).storage = s.storage ∧
    (resetSectionStates s).notifications = s.notifications ∧
    (resetSectionStates s).requests = s.requests ∧
    (resetSectionStates s).status = allPending :=
  ⟨rfl, rfl, rfl, rfl, rfl, rfl, rfl, rfl, rfl⟩

/-- C15: for every session state, `resetApplication` clears the active customer and the
dependent state: afterwards `currentCustomer`, `currentAnalysis` and
`currentRecommendations` are null, `selectedProducts` is empty and all four stage
statuses are pending; the empty value of the customer select runs it. -/
theorem resetApplication_clears (s : Session) :
    (resetApplication s).currentCustomer = none ∧
    (resetApplication s).currentAnalysis = .null ∧
    (resetApplication s).currentRecommendations = .null ∧
    (resetApplication s).selectedProducts = [] ∧
    (resetApplication s).status = allPending ∧
    ∀ api, customerSelectChange api s none = { session := resetApplication s, raised := none } :=
  ⟨rfl, rfl, rfl, rfl, rfl, fun _ => rfl⟩

/-- `loadCustomerProfile` never assigns `currentAnalysis`, `currentRecommendations` or
`window.currentEmail`. -/
theorem loadCustomerProfile_fields (api : Transport) (s : Session) (customerId : Int) :
    (loadCustomerProfile api s customerId).session.currentCustomer = some customerId ∧
    (loadCustomerProfile api s customerId).session.currentAnalysis = s.currentAnalysis ∧
    (loadCustomerProfile api s customerId).session.currentRecommendations =
      s.currentRecommendations ∧
    (loadCustomerProfile api s customerId).session.currentEmail = s.currentEmail := by
  unfold loadCustomerProfile
  simp only []
  split
  · exact ⟨rfl, rfl, rfl, rfl⟩
  · split <;> exact ⟨rfl, rfl, rfl, rfl⟩

/-- C14 (code defect): `loadCustomerProfile(id2)` leaves `currentAnalysis`,
`currentRecommendations` and `window.currentEmail` exactly as they were, for every session
and transport answer. In the scenario, after customer 1 has analysis and recommendations
loaded and customer 2 is selected, the session still holds the analysis and
recommendations of customer 1, and `runEmail` requests an email for customer 2 with the
product 7 recommended to customer 1. -/
theorem loadCustomerProfile_keeps_previous_results :
    (∀ (api : Transport) (s : Session) (id2 : Int),
      (loadCustomerProfile api s id2).session.currentCustomer = some id2 ∧
      (loadCustomerProfile api s id2).session.currentAnalysis = s.currentAnalysis ∧
      (loadCustomerProfile api s id2).session.currentRecommendations =
        s.currentRecommendations ∧
      (loadCustomerProfile api s id2).session.currentEmail = s.currentEmail) ∧
    sessionWithCustomer1.currentCustomer = some 1 ∧
    truthy (loadCustomerProfile scenarioTransport sessionWithCustomer1 2).session.currentAnalysis
      = true ∧
    truthy (loadCustomerProfile scenarioTransport sessionWithCustomer1 2).session.currentRecommendations
      = true ∧
    (runEmail scenarioTransport
      (loadCustomerProfile scenarioTransport sessionWithCustomer1 2).session).session.requests.getLast?
      = some (generateEmailRequest 2 (some (.num 7))) :=
  ⟨loadCustomerProfile_fields, rfl, rfl, rfl, rfl⟩

theorem recommendationsMissing_null : recommendationsMissing .null = .ok true := rfl

theorem recommendationsMissing_empty (cr : JVal)
    (h : getProp cr "recommendations" = .ok (some (.arr []))) :
    recommendationsMissing cr = .ok true := by
  have hlen : getPropOpt (some (JVal.arr [])) "length" = .ok (some (.num 0)) := rfl
  unfold recommendationsMissing
  cases ht : truthy cr with
  | false => rfl
  | true =>
    simp only [Bool.not_true, Bool.false_eq_true, if_false, h, bind, Except.bind, hlen]
    rfl

/-- The first guard of the run actions: no customer selected. -/
theorem runEmail_no_customer (api : Transport) (s : Session)
    (h : customerSelected s.currentCustomer = false) :
    runEmail api s =
      { session := showNotification s "Please select a customer first" "error", raised := none } := by
  unfold runEmail
  cases hc : s.currentCustomer with
  | none => rfl
  | some n =>
    rw [hc] at h
    have hn : n = 0 := by simpa [customerSelected] using h
    simp [hn]

theorem runMockups_no_customer (api : Transport) (s : Session)
    (h : customerSelected s.currentCustomer = false) :
    runMockups api s =
      { session := showNotification s "Please select a customer first" "error", raised := none } := by
  unfold runMockups
  cases hc : s.currentCustomer with
  | none => rfl
  | some n =>
    rw [hc] at h
    have hn : n = 0 := by simpa [customerSelected] using h
    simp [hn]

theorem runEmail_missing (api : Transport) (s : Session)
    (h : customerSelected s.currentCustomer = true)
    (hm : recommendationsMissing s.currentRecommendations = .ok true) :
    runEmail api s =
      { session := showNotification s "Please get recommendations first" "error", raised := none } := by
  unfold runEmail
  cases hc : s.currentCustomer with
  | none => rw [hc] at h; cases h
  | some n =>
    rw [hc] at h
    have hn : ¬ n = 0 := by simpa [customerSelected] using h
    simp [hn, hm]

theorem runMockups_missing (api : Transport) (s : Session)
    (h : customerSelected s.currentCustomer = true)
    (hm : recommendationsMissing s.currentRecommendations = .ok true) :
    runMockups api s =
      { session := showNotification s "Please get recommendations first" "error", raised := none } := by
  unfold runMockups
  cases hc : s.currentCustomer with
  | none => rw [hc] at h; cases h
  | some n =>
    rw [hc] at h
    have hn : ¬ n = 0 := by simpa [customerSelected] using h
    simp [hn, hm]

theorem recommendationsMissing_raises (cr : JVal) (ht : truthy cr = true)
    (h : getProp cr "recommendations" = .ok none ∨
      getProp cr "recommendations" = .ok (some .null)) :
    recommendationsMissing cr = .error .typeError := by
  unfold recommendationsMissing
  rcases h with h | h <;>
    simp only [ht, Bool.not_true, Bool.false_eq_true, if_false, h, bind, Except.bind] <;> rfl

theorem runEmail_raises (api : Transport) (s : Session) (e : Exn)
    (h : customerSelected s.currentCustomer = true)
    (hm : recommendationsMissing s.currentRecommendations = .error e) :
    runEmail api s = { session := s, raised := some e } := by
  unfold runEmail
  cases hc : s.currentCustomer with
  | none => rw [hc] at h; cases h
  | some n =>
    rw [hc] at h
    have hn : ¬ n = 0 := by simpa [customerSelected] using h
    simp [hn, hm]

theorem runMockups_raises (api : Transport) (s : Session) (e : Exn)
    (h : customerSelected s.currentCustomer = true)
    (hm : recommendationsMissing s.currentRecommendations = .error e) :
    runMockups api s = { session := s, raised := some e } := by
  unfold runMockups
  cases hc : s.currentCustomer with
  | none => rw [hc] at h; cases h
  | some n =>
    rw [hc] at h
    have hn : ¬ n = 0 := by simpa [customerSelected] using h
    simp [hn, hm]

/-- C16 (code defect): when no customer is selected, or `currentRecommendations` is null, or
its list is empty, `runEmail` and `runMockups` are guarded no-ops: nothing escapes, and the
session is left as it was (no transport request, same variables, stage statuses and cache)
except for one added notification of type error. When a customer is selected and
`currentRecommendations` is a value without a list (its `recommendations` is missing or
null), the guard itself raises a `TypeError`, which escapes the action; the session is
left as it was and no notification is shown. Such a session is reachable: customer 1 is
selected and the request for recommendations is answered with the empty object `{}`. -/
theorem runEmail_runMockups_guard (api : Transport) (s : Session) :
    ((s.currentCustomer = none ∨ s.currentRecommendations = .null ∨
        getProp s.currentRecommendations "recommendations" = .ok (some (.arr []))) →
      (∃ msg, runEmail api s =
        { session := { s with notifications := s.notifications ++ [(msg, "error")] },
          raised := none }) ∧
      (∃ msg, runMockups api s =
        { session := { s with notifications := s.notifications ++ [(msg, "error")] },
          raised := none })) ∧
    (customerSelected s.currentCustomer = true → truthy s.currentRecommendations = true →
      (getProp s.currentRecommendations "recommendations" = .ok none ∨
        getProp s.currentRecommendations "recommendations" = .ok (some .null)) →
      runEmail api s = { session := s, raised := some .typeError } ∧
      runMockups api s = { session := s, raised := some .typeError }) ∧
    Reachable sessionWithEmptyObject [] ∧
    sessionWithEmptyObject.currentCustomer = some 1 ∧
    sessionWithEmptyObject.currentRecommendations = .obj [] ∧
    runEmail scenarioTransport sessionWithEmptyObject =
      { session := sessionWithEmptyObject, raised := some .typeError } ∧
    runMockups scenarioTransport sessionWithEmptyObject =
      { session := sessionWithEmptyObject, raised := some .typeError } := by
  refine ⟨?_, ?_, ?_, rfl, rfl, rfl, rfl⟩
  · intro h
    cases hsel : customerSelected s.currentCustomer with
    | false =>
      exact ⟨⟨_, runEmail_no_customer api s hsel⟩, ⟨_, runMockups_no_customer api s hsel⟩⟩
    | true =>
      have hm : recommendationsMissing s.currentRecommendations = .ok true := by
        rcases h with h | h | h
        · rw [h] at hsel; cases hsel
        · rw [h]; rfl
        · exact recommendationsMissing_empty _ h
      exact ⟨⟨_, runEmail_missing api s hsel hm⟩, ⟨_, runMockups_missing api s hsel hm⟩⟩
  · intro hsel ht h
    have hm := recommendationsMissing_raises s.currentRecommendations ht h
    exact ⟨runEmail_raises api s _ hsel hm, runMockups_raises api s _ hsel hm⟩
  · exact Reachable.action emptyObjectTransport (fun _ => false) _ [] .runRecommendations
      (Reachable.action emptyObjectTransport (fun _ => false) _ [] (.loadCustomerProfile 1)
        (Reachable.initial none allPending))

theorem runEmail_runMockups_guard_witness :
    (∃ msg, runEmail scenarioTransport
        (loadCustomerProfile scenarioTransport (initialSession none allPending) 1).session =
      { session :=
          { (loadCustomerProfile scenarioTransport (initialSession none allPending) 1).session with
            notifications :=
              (loadCustomerProfile scenarioTransport
                (initialSession none allPending) 1).session.notifications ++ [(msg, "error")] },
        raised := none }) ∧
    (∃ msg, runMockups scenarioTransport
        (loadCustomerProfile scenarioTransport (initialSession none allPending) 1).session =
      { session :=
          { (loadCustomerProfile scenarioTransport (initialSession none allPending) 1).session with
            notifications :=
              (loadCustomerProfile scenarioTransport
                (initialSession none allPending) 1).session.notifications ++ [(msg, "error")] },
        raised := none }) :=
  (runEmail_runMockups_guard scenarioTransport
    (loadCustomerProfile scenarioTransport (initialSession none allPending) 1).session).1
    (.inr (.inl rfl))

theorem statuses_set_set (st : Statuses) (statusId : StageId) (x y : Status) :
    (st.set statusId x).set statusId y = st.set statusId y := by
  cases statusId <;> rfl

theorem runAnalysis_transport_failure (api : Transport) (s : Session) (customerId : Int)
    (msg : String) (hc : s.currentCustomer = some customerId) (hz : customerId ≠ 0)
    (hfail : api (customerPost "/analyze-customer" customerId) = .error msg) :
    runAnalysis api s =
      { session := showNotification
          (updateProcessingStatus
            (issue (updateProcessingStatus s .statusProfile .processing)
              (customerPost "/analyze-customer" customerId))
            .statusProfile .error)
          "Analysis failed" "error",
        raised := none } := by
  unfold runAnalysis
  simp only [hc, hz, if_false, hfail]

theorem runRecommendations_transport_failure (api : Transport) (s : Session)
    (customerId : Int) (msg : String) (hc : s.currentCustomer = some customerId)
    (hz : customerId ≠ 0)
    (hfail : api (customerPost "/recommend-products" customerId) = .error msg) :
    runRecommendations api s =
      { session := showNotification
          (updateProcessingStatus
            (issue (updateProcessingStatus s .statusAnalysis .processing)
              (customerPost "/recommend-products" customerId))
            .statusAnalysis .error)
          "Failed to get recommendations" "error",
        raised := none } := by
  unfold runRecommendations
  simp only [hc, hz, if_false, hfail]

theorem runEmail_transport_failure (api : Transport) (s : Session) (customerId : Int)
    (productId : Option JVal) (msg : String) (hc : s.currentCustomer = some customerId)
    (hz : customerId ≠ 0)
    (hm : recommendationsMissing s.currentRecommendations = .ok false)
    (hp : topProductId s.currentRecommendations = .ok productId)
    (hfail : api (generateEmailRequest customerId productId) = .error msg) :
    runEmail api s =
      runEmailFailed (issue (updateProcessingStatus s .statusProducts .processing)
        (generateEmailRequest customerId productId)) := by
  have hp' : topProductId (updateProcessingStatus s .statusProducts .processing).currentRecommendations
      = .ok productId := hp
  unfold runEmail
  simp only [hc, hz, if_false, hm, hp', hfail]
  rfl

theorem resumeAction_transport_failure (t : Session) (msg : String) (k : AsyncAction) :
    KeepsLastKnownGood t (resumeAction t (.error msg) k) := by
  cases k <;> exact ⟨rfl, rfl, rfl, rfl, rfl, _, rfl⟩

/-- C18: when the transport fails and a customer is selected, `runAnalysis` and
`runRecommendations` issue their request, surface exactly one error notification, leave
`currentCustomer`, `currentAnalysis`, `currentRecommendations` and the persisted cache
unchanged and set their stage to error, and no exception escapes; so does `runEmail` when
the recommendations have a first product, with the products and email stages set to
error. The part of an action that resumes with a failed answer does the same in every
session in which it resumes. -/
theorem transport_failure_keeps_state (api : Transport) (s : Session) (customerId : Int)
    (hfail : ∀ req, ∃ msg, api req = .error msg)
    (hc : s.currentCustomer = some customerId) (hz : customerId ≠ 0) :
    (KeepsLastKnownGood s (runAnalysis api s) ∧
      (runAnalysis api s).session.requests =
        s.requests ++ [customerPost "/analyze-customer" customerId] ∧
      (runAnalysis api s).session.status = s.status.set .statusProfile .error) ∧
    (KeepsLastKnownGood s (runRecommendations api s) ∧
      (runRecommendations api s).session.requests =
        s.requests ++ [customerPost "/recommend-products" customerId] ∧
      (runRecommendations api s).session.status = s.status.set .statusAnalysis .error) ∧
    (∀ productId, recommendationsMissing s.currentRecommendations = .ok false →
      topProductId s.currentRecommendations = .ok productId →
      KeepsLastKnownGood s (runEmail api s) ∧
      (runEmail api s).session.requests =
        s.requests ++ [generateEmailRequest customerId productId] ∧
      (runEmail api s).session.status =
        (s.status.set .statusProducts .error).set .statusEmail .error) ∧
    ∀ (t : Session) (msg : String) (k : AsyncAction),
      KeepsLastKnownGood t (resumeAction t (.error msg) k) := by
  refine ⟨?_, ?_, ?_, resumeAction_transport_failure⟩
  · obtain ⟨msg, hmsg⟩ := hfail (customerPost "/analyze-customer" customerId)
    rw [runAnalysis_transport_failure api s customerId msg hc hz hmsg]
    exact ⟨⟨rfl, rfl, rfl, rfl, rfl, _, rfl⟩, rfl,
      statuses_set_set s.status .statusProfile .processing .error⟩
  · obtain ⟨msg, hmsg⟩ := hfail (customerPost "/recommend-products" customerId)
    rw [runRecommendations_transport_failure api s customerId msg hc hz hmsg]
    exact ⟨⟨rfl, rfl, rfl, rfl, rfl, _, rfl⟩, rfl,
      statuses_set_set s.status .statusAnalysis .processing .error⟩
  · intro productId hm hp
    obtain ⟨msg, hmsg⟩ := hfail (generateEmailRequest customerId productId)
    rw [runEmail_transport_failure api s customerId productId msg hc hz hm hp hmsg]
    refine ⟨⟨rfl, rfl, rfl, rfl, rfl, _, rfl⟩, rfl, ?_⟩
    show ((s.status.set .statusProducts .processing).set .statusProducts .error).set
      .statusEmail .error = _
    rw [statuses_set_set]

theorem transport_failure_keeps_state_witness :
    KeepsLastKnownGood sessionWithCustomer1 (runAnalysis failingTransport sessionWithCustomer1) ∧
    (runAnalysis failingTransport sessionWithCustomer1).session.requests =
      sessionWithCustomer1.requests ++ [customerPost "/analyze-customer" 1] ∧
    KeepsLastKnownGood sessionWithCustomer1
      (runRecommendations failingTransport sessionWithCustomer1) ∧
    (runRecommendations failingTransport sessionWithCustomer1).session.requests =
      sessionWithCustomer1.requests ++ [customerPost "/recommend-products" 1] ∧
    KeepsLastKnownGood sessionWithCustomer1 (runEmail failingTransport sessionWithCustomer1) ∧
    (runEmail failingTransport sessionWithCustomer1).session.requests =
      sessionWithCustomer1.requests ++ [generateEmailRequest 1 (some (.num 7))] :=
  have h := transport_failure_keeps_state failingTransport sessionWithCustomer1 1
    (fun _ => ⟨_, rfl⟩) rfl (by decide)
  ⟨h.1.1, h.1.2.1, h.2.1.1, h.2.1.2.1, (h.2.2.1 (some (.num 7)) rfl rfl).1,
    (h.2.2.1 (some (.num 7)) rfl rfl).2.1⟩

theorem appliedTransition_pending (st : StageId) (x : Status) :
    appliedTransition (st, x, .pending) = true := by
  cases st <;> cases x <;> rfl

theorem appliedTransition_processing (st : StageId) (x : Status) (h : st ≠ .statusEmail) :
    appliedTransition (st, x, .processing) = true := by
  cases st <;> cases x <;> first | rfl | exact absurd rfl h

theorem appliedTransition_complete (st : StageId) :
    appliedTransition (st, .processing, .complete) = true := by
  cases st <;> rfl

theorem appliedTransition_error (st : StageId) (x : Status)
    (h : x = .processing ∨ x = .complete) : appliedTransition (st, x, .error) = true := by
  rcases h with rfl | rfl <;> cases st <;> rfl

theorem appliedTransition_email (x y : Status) (h : y ≠ .processing) :
    appliedTransition (.statusEmail, x, y) = true := by
  cases x <;> cases y <;> first | rfl | exact absurd rfl h

theorem newTransitions_append (s t : Session) (l : List (StageId × Status × Status))
    (h : t.transitions = s.transitions ++ l) : newTransitions s t = l := by
  simp [newTransitions, h]

theorem resetSectionStates_transitions (s : Session) :
    (resetSectionStates s).transitions = s.transitions ++
      [(.statusProfile, s.status.statusProfile, .pending),
       (.statusAnalysis, s.status.statusAnalysis, .pending),
       (.statusProducts, s.status.statusProducts, .pending),
       (.statusEmail, s.status.statusEmail, .pending)] := by
  simp [resetSectionStates, updateProcessingStatus, Statuses.get, Statuses.set]

theorem resetSectionStates_applied (s t : Session) (h : t.transitions = s.transitions) :
    (newTransitions s (resetSectionStates t)).all appliedTransition = true := by
  rw [newTransitions_append s _ _ (by rw [resetSectionStates_transitions, h])]
  simp [appliedTransition_pending]

theorem loadCustomerProfile_applied (api : Transport) (s : Session) (customerId : Int) :
    (newTransitions s (loadCustomerProfile api s customerId).session).all appliedTransition
      = true := by
  unfold loadCustomerProfile
  simp only []
  split
  · simp [newTransitions, showNotification, issue]
  · split
    · simp [newTransitions, showNotification, issue]
    · exact resetSectionStates_applied s _ rfl

theorem resetApplication_applied (s : Session) :
    (newTransitions s (resetApplication s)).all appliedTransition = true :=
  resetSectionStates_applied s _ rfl

theorem runAnalysis_applied (api : Transport) (s : Session) :
    (newTransitions s (runAnalysis api s).session).all appliedTransition = true := by
  unfold runAnalysis
  split
  · simp [newTransitions, showNotification]
  · split
    · simp [newTransitions, showNotification]
    · simp only []
      split
      · rw [newTransitions_append s _ [(.statusProfile, s.status.statusProfile, .processing),
          (.statusProfile, .processing, .error)] (by
            simp [showNotification, updateProcessingStatus, issue, Statuses.get, Statuses.set])]
        simp [appliedTransition_processing, appliedTransition_error]
      · split
        · rw [newTransitions_append s _ [(.statusProfile, s.status.statusProfile, .processing),
            (.statusProfile, .processing, .error)] (by
              simp [showNotification, updateProcessingStatus, issue, Statuses.get, Statuses.set])]
          simp [appliedTransition_processing, appliedTransition_error]
        · split
          · rw [newTransitions_append s _ [(.statusProfile, s.status.statusProfile, .processing),
              (.statusProfile, .processing, .complete), (.statusProfile, .complete, .error)] (by
                simp [showNotification, updateProcessingStatus, issue, Statuses.get,
                  Statuses.set])]
            simp [appliedTransition_processing, appliedTransition_error,
              appliedTransition_complete]
          · rw [newTransitions_append s _ [(.statusProfile, s.status.statusProfile, .processing),
              (.statusProfile, .processing, .complete)] (by
                simp [showNotification, updateProcessingStatus, issue, Statuses.get,
                  Statuses.set])]
            simp [appliedTransition_processing, appliedTransition_complete]

theorem runRecommendations_applied (api : Transport) (s : Session) :
    (newTransitions s (runRecommendations api s).session).all appliedTransition = true := by
  unfold runRecommendations
  repeat' first | split | simp only []
  all_goals
    simp [newTransitions, showNotification, updateProcessingStatus, issue, Statuses.get,
      Statuses.set, appliedTransition_processing, appliedTransition_error,
      appliedTransition_complete]

theorem displayEmail_ok (t u : Session) (r : JVal) (h : displayEmail t r = .ok u) :
    u = { t with currentEmail := some r } := by
  unfold displayEmail at h
  cases hp : getProp r "personalization_score" with
  | error e => simp [hp, bind, Except.bind] at h
  | ok v =>
    simp only [hp, bind, Except.bind, pure, Except.pure] at h
    exact (Except.ok.inj h).symm

theorem runEmail_applied (api : Transport) (s : Session) :
    (newTransitions s (runEmail api s).session).all appliedTransition = true := by
  unfold runEmail
  repeat' first | split | simp only []
  all_goals first
    | (simp [newTransitions, showNotification, updateProcessingStatus, issue, Statuses.get,
        Statuses.set, appliedTransition_processing, appliedTransition_error,
        appliedTransition_complete, appliedTransition_email]; done)
    | (rename_i hd
       rw [displayEmail_ok _ _ _ hd]
       simp [newTransitions, showNotification, updateProcessingStatus, issue, Statuses.get,
        Statuses.set, appliedTransition_processing, appliedTransition_error,
        appliedTransition_complete, appliedTransition_email])

theorem runMockups_applied (api : Transport) (s : Session) :
    (newTransitions s (runMockups api s).session).all appliedTransition = true := by
  unfold runMockups
  repeat' first | split | simp only []
  all_goals
    simp [newTransitions, showNotification, updateProcessingStatus, issue, Statuses.get,
      Statuses.set]

theorem startAnalysis_applied (api : Transport) (positive : JVal → Bool) (s : Session) :
    (newTransitions s (startAnalysis api positive s).session).all appliedTransition = true := by
  unfold startAnalysis
  repeat' first | split | simp only []
  all_goals first
    | (simp [newTransitions, showNotification, updateProcessingStatus, issue, Statuses.get,
        Statuses.set, appliedTransition_processing, appliedTransition_error,
        appliedTransition_complete, appliedTransition_email]; done)
    | (rename_i hd
       rw [displayEmail_ok _ _ _ hd]
       simp [newTransitions, showNotification, updateProcessingStatus, issue, Statuses.get,
        Statuses.set, appliedTransition_processing, appliedTransition_error,
        appliedTransition_complete, appliedTransition_email])

/-- An action that runs in one step is its first part followed at once by its second
part, with the answer of the transport to the request of the first part. -/
theorem runAction_eq_start_resume (api : Transport) (positive : JVal → Bool) (s : Session)
    (k : AsyncAction) :
    runAction api positive s k.toAction =
      match startAction s k with
      | .returned out => out
      | .awaiting t req => resumeAction t (api req) k := by
  obtain ⟨cc, ca, cr, sp, ce, st, status, n, r, tr⟩ := s
  cases k with
  | loadCustomerProfile customerId => rfl
  | runAnalysis =>
    cases cc with
    | none => rfl
    | some customerId =>
      by_cases hz : customerId = 0
      · simp [AsyncAction.toAction, runAction, runAnalysis, startAction, runAnalysisStart, hz]
      · simp only [AsyncAction.toAction, runAction, runAnalysis, startAction, runAnalysisStart,
          hz, if_false, resumeAction, runAnalysisResume]
        rfl
  | runRecommendations =>
    cases cc with
    | none => rfl
    | some customerId =>
      by_cases hz : customerId = 0
      · simp [AsyncAction.toAction, runAction, runRecommendations, startAction,
          runRecommendationsStart, hz]
      · simp only [AsyncAction.toAction, runAction, runRecommendations, startAction,
          runRecommendationsStart, hz, if_false, resumeAction, runRecommendationsResume]
        rfl
  | runEmail =>
    cases cc with
    | none => rfl
    | some customerId =>
      by_cases hz : customerId = 0
      · simp [AsyncAction.toAction, runAction, runEmail, startAction, runEmailStart, hz]
      · simp only [AsyncAction.toAction, runAction, runEmail, startAction, runEmailStart,
          hz, if_false, resumeAction]
        cases hm : recommendationsMissing cr with
        | error e => rfl
        | ok b =>
          cases b with
          | true => rfl
          | false =>
            simp only []
            cases hp : topProductId
                (updateProcessingStatus
                  { currentCustomer := some customerId, currentAnalysis := ca,
                    currentRecommendations := cr, selectedProducts := sp, currentEmail := ce,
                    storage := st, status := status, notifications := n, requests := r,
                    transitions := tr } .statusProducts .processing).currentRecommendations with
            | error e => rfl
            | ok productId => rfl

/-- C17 (as amended): when an action runs in one step, that is, no other action runs
between its start and the arrival of the answer it awaits, every status change that it
applies to a stage indicator is one of: any state→pending; any state→processing, for the
profile, analysis and products stages (an action can be started again on a complete or
failed stage); processing→complete; processing→error or complete→error; and, for the
email stage, a move to complete or error from any state. In particular the profile,
analysis and products stages become complete only from processing. This holds from
every session. -/
theorem actions_apply_transitions (api : Transport) (positive : JVal → Bool) (s : Session)
    (a : Action) :
    (newTransitions s (runAction api positive s a).session).all appliedTransition = true ∧
    (newTransitions s (runAction api positive s a).session).all
      (fun x => x.1 = .statusEmail || x.2.2 != .complete || x.2.1 = .processing) = true ∧
    ∀ k : AsyncAction,
      runAction api positive s k.toAction =
        match startAction s k with
        | .returned out => out
        | .awaiting t req => resumeAction t (api req) k := by
  have h : (newTransitions s (runAction api positive s a).session).all appliedTransition
      = true := by
    cases a with
    | loadCustomerProfile customerId => exact loadCustomerProfile_applied api s customerId
    | resetApplication => exact resetApplication_applied s
    | runAnalysis => exact runAnalysis_applied api s
    | runRecommendations => exact runRecommendations_applied api s
    | runEmail => exact runEmail_applied api s
    | runMockups => exact runMockups_applied api s
    | startAnalysis => exact startAnalysis_applied api positive s
  refine ⟨h, ?_, runAction_eq_start_resume api positive s⟩
  rw [List.all_eq_true] at h ⊢
  intro x hx
  have hx' := h x hx
  obtain ⟨st, old, new⟩ := x
  revert hx'
  cases st <;> cases old <;> cases new <;> decide

/-- C17 (as stated) fails: from the page with all indicators pending, after selecting a
customer and running the analysis (a reachable state), running the analysis again moves
the profile stage from complete directly to processing; and after loading recommendations
`runEmail` moves the email stage from pending to complete without processing. And when
customer 2 is selected while `runAnalysis` for customer 1 waits for its answer, the
resumed `runAnalysis` moves the profile stage from pending to complete, or from pending
to error when the answer is a failure. -/
theorem illegal_transitions_reachable :
    Reachable (runAction scenarioTransport (fun _ => false)
      (runAction scenarioTransport (fun _ => false) (initialSession none allPending)
        (.loadCustomerProfile 1)).session .runAnalysis).session [] ∧
    (StageId.statusProfile, Status.complete, Status.processing) ∈
      newTransitions
        (runAction scenarioTransport (fun _ => false)
          (runAction scenarioTransport (fun _ => false) (initialSession none allPending)
            (.loadCustomerProfile 1)).session .runAnalysis).session
        (runAction scenarioTransport (fun _ => false)
          (runAction scenarioTransport (fun _ => false)
            (runAction scenarioTransport (fun _ => false) (initialSession none allPending)
              (.loadCustomerProfile 1)).session .runAnalysis).session .runAnalysis).session ∧
    legalTransition .complete .processing = false ∧
    Reachable sessionWithCustomer1 [] ∧
    (StageId.statusEmail, Status.pending, Status.complete) ∈
      newTransitions sessionWithCustomer1
        (runAction scenarioTransport (fun _ => false) sessionWithCustomer1 .runEmail).session ∧
    legalTransition .pending .complete = false ∧
    startAction (loadCustomerProfile scenarioTransport (initialSession none allPending) 1).session
      .runAnalysis = .awaiting sessionAnalysisAwaiting (customerPost "/analyze-customer" 1) ∧
    Reachable sessionReselected [.runAnalysis] ∧
    newTransitions sessionReselected
      (resumeAction sessionReselected (scenarioTransport (customerPost "/analyze-customer" 1))
        .runAnalysis).session = [(.statusProfile, .pending, .complete)] ∧
    newTransitions sessionReselected
      (resumeAction sessionReselected (failingTransport (customerPost "/analyze-customer" 1))
        .runAnalysis).session = [(.statusProfile, .pending, .error)] ∧
    legalTransition .pending .error = false ∧
    appliedTransition (.statusProfile, .pending, .complete) = false := by
  refine ⟨?_, by decide, rfl, ?_, by decide, rfl, rfl, ?_, by decide, by decide, rfl, rfl⟩
  · exact Reachable.action _ _ _ _ _ (Reachable.action _ _ _ _ _ (Reachable.initial _ _))
  · exact Reachable.action scenarioTransport (fun _ => false) _ [] .runRecommendations
      (Reachable.action scenarioTransport (fun _ => false) _ [] .runAnalysis
        (Reachable.action scenarioTransport (fun _ => false) _ [] (.loadCustomerProfile 1)
          (Reachable.initial none allPending)))
  · exact Reachable.action scenarioTransport (fun _ => false) sessionAnalysisAwaiting
      [.runAnalysis] (.loadCustomerProfile 2)
      (Reachable.started _ [] .runAnalysis sessionAnalysisAwaiting
        (customerPost "/analyze-customer" 1)
        (Reachable.action scenarioTransport (fun _ => false) _ [] (.loadCustomerProfile 1)
          (Reachable.initial none allPending)) rfl)

end SalesAgent
